import Mathlib

/-!
Verification development for the Anki flashcard generation pipeline (`core.py`).

The pipeline is embedded shallowly: the mutable generator object becomes an
explicit state record (`GenState`), external collaborators (content backend,
speech synthesis, flashcard store, filesystem) become an oracle environment
(`Env`) consulted by call index, and every externally visible action is
recorded in a trace (most recent event first).  Wall-clock timestamps
(`ProcessingStats.start_time`) are not modeled; `time.sleep` is recorded as a
trace event.  Python floats that only ever hold small decimal constants and
their products (the TTS delay and the remaining-time estimate) are modeled as
rationals.
-/

namespace AnkiCardMaker

/-- The `ProcessingState` enum of core.py. -/
inductive ProcessingState where
  | idle
  | reading_words
  | generating_content
  | generating_audio
  | copying_audio
  | sending_to_anki
  | completed
  | failed
  | cancelled
  deriving DecidableEq, Repr

/-- The `ProcessingStats` dataclass of core.py (`start_time` omitted: wall clock). -/
structure ProcessingStats where
  total_words : Nat := 0
  processed_words : Nat := 0
  failed_words : Nat := 0
  skipped_words : Nat := 0
  current_word : Option String := none
  estimated_time_remaining : Option ℚ := none
  deriving DecidableEq, Repr

/-- The `GeneratorConfig` dataclass of core.py. -/
structure GeneratorConfig where
  words_file : String := "./words.txt"
  deck_name : String := "Danish vocab"
  model_name : String := "Danish"
  reverse_model_name : String := "Danish Reverse"
  audio_dir : String := "./audio"
  audio_cache_dir : String := "./audio_cache"
  checkpoint_file : String := "./checkpoint.json"
  tts_delay : ℚ := 13 / 2
  skip_existing_audio : Bool := false
  test_mode : Bool := false
  generate_reverse_cards : Bool := false
  deriving DecidableEq, Repr

/-- The `FlashcardData` dataclass of core.py. -/
structure FlashcardData where
  word : String
  translation : String
  example_sentence_da : String
  example_sentence_en : String
  audio_word_file : Option String := none
  audio_sentence_file : Option String := none
  error : Option String := none
  deriving DecidableEq, Repr

/-- Combined outcome of one `g_generate` call followed by `json.loads` and field
access, as observed by `generate_content_for_word`: a successfully parsed
response, a `json.JSONDecodeError`, or any other exception. -/
inductive GeminiOutcome where
  | ok (word translation example_sentence_da example_sentence_en : String)
  | jsonError
  | exn (msg : String)
  deriving DecidableEq, Repr

/-- Outcome of one `tts_generate` call: success, a `google.genai` `ClientError`
carrying its HTTP status code, or any other exception. -/
inductive TtsResult where
  | ok
  | clientError (status_code : Nat) (msg : String)
  | otherError (msg : String)
  deriving DecidableEq, Repr

/-- Trace events.  `idx` fields are ghost data identifying the position of the
flashcard record being processed inside the run's flashcard list; `audioCall`
is a ghost marker for the orchestrator invoking the audio stage on a record,
carrying the time estimate current at that moment. -/
inductive Event where
  | geminiCall (word : String)
  | ttsCall (idx : Nat) (text : String) (filename : String)
  | sleepEv (seconds : ℚ)
  | copyEv (src : String) (dest : String)
  | publishCopy (idx : Nat) (src : String) (dest : String)
  | noteAdd (idx : Nat) (modelName : String) (isReverse : Bool) (ok : Bool)
  | audioCall (idx : Nat) (word : String) (estimate : Option ℚ)
  | stateEv (st : ProcessingState)
  deriving DecidableEq, Repr

/-- The external world: word file, content backend, speech backend, flashcard
store, and the text-hash function (`hashlib.md5(...).hexdigest()`, an opaque
deterministic library function).  Backend oracles are indexed by the number of
calls made so far to that backend. -/
structure Env where
  wordsFileExists : Bool
  wordLines : List String
  gemini : Nat → GeminiOutcome
  tts : Nat → TtsResult
  ttsDoubled : Nat → Bool
  addNote : Nat → Option String
  ankiMediaDir : String
  md5hex : String → String

/-- The mutable state of an `AnkiFlashcardGenerator` together with the parts of
the filesystem it touches.  `files` is the set of existing paths (as a list),
`checkpointFile` the persisted checkpoint contents (`none` = file absent),
`trace` the event log, most recent first. -/
structure GenState where
  state : ProcessingState
  stats : ProcessingStats
  cancelled : Bool
  checkpoint : List (String × FlashcardData)
  cacheMetadata : List (String × String)
  files : List String
  checkpointFile : Option (List (String × FlashcardData))
  geminiCalls : Nat
  ttsCalls : Nat
  noteCalls : Nat
  trace : List Event
  deriving DecidableEq, Repr

/-- Python dict lookup on an association list. -/
def dictLookup {β : Type} (k : String) : List (String × β) → Option β
  | [] => none
  | (k', v) :: rest => if k' = k then some v else dictLookup k rest

/-- Python dict assignment: update in place if the key exists, else append. -/
def dictInsert {β : Type} (k : String) (v : β) : List (String × β) → List (String × β)
  | [] => [(k, v)]
  | (k', v') :: rest => if k' = k then (k, v) :: rest else (k', v') :: dictInsert k v rest

/-- The whitespace class stripped by Python's `str.strip` and matched by `\s`
(ASCII range). -/
def isPySpace (c : Char) : Bool :=
  c = ' ' || c = '\t' || c = '\n' || c = '\r' || c = '\x0b' || c = '\x0c'

/-- Python `str.strip()`. -/
def pyStrip (s : String) : String :=
  String.mk (((s.data.dropWhile isPySpace).reverse.dropWhile isPySpace).reverse)

/-- The word-list filter of `read_words`: strip each line, drop blanks and
`#`-comments. -/
def parse_words : List String → List String
  | [] => []
  | line :: rest =>
      let word := pyStrip line
      if word = "" then parse_words rest
      else if "#".data.isPrefixOf word.data then parse_words rest
      else word :: parse_words rest

/-- Scan for the `>` closing a `<`, failing at a newline or end of input
(Python's `.` does not match a newline, so `re.sub(r"<.*?>", ...)` leaves an
unterminated `<` alone). -/
def findTagClose : List Char → Option (List Char)
  | [] => none
  | c :: rest => if c = '>' then some rest else if c = '\n' then none else findTagClose rest

/-- `re.sub(r"<.*?>", "", text)`: remove each minimal `<...>` span.  The
recursion is driven by a character-count fuel (each step consumes at least one
character, so `l.length` fuel always suffices); spelling it this way keeps the
function structurally recursive and kernel-computable. -/
def stripTagsF : Nat → List Char → List Char
  | _, [] => []
  | 0, rest => rest
  | fuel + 1, c :: rest =>
      if c = '<' then
        match findTagClose rest with
        | some after => stripTagsF fuel after
        | none => c :: stripTagsF fuel rest
      else c :: stripTagsF fuel rest

def stripTags (l : List Char) : List Char := stripTagsF l.length l

/-- `re.sub(r"\s+", "_", text)`: each maximal whitespace run becomes one `_`.
Fuel-driven for the same reason as `stripTagsF`. -/
def collapseSpacesF : Nat → List Char → List Char
  | _, [] => []
  | 0, rest => rest
  | fuel + 1, c :: rest =>
      if isPySpace c then '_' :: collapseSpacesF fuel (rest.dropWhile isPySpace)
      else c :: collapseSpacesF fuel rest

def collapseSpaces (l : List Char) : List Char := collapseSpacesF l.length l

/-- The character class kept by `re.sub(r"[^a-zA-Z0-9_-]", "", text)`. -/
def isFilenameChar (c : Char) : Bool :=
  ('a' ≤ c && c ≤ 'z') || ('A' ≤ c && c ≤ 'Z') || ('0' ≤ c && c ≤ '9') || c = '_' || c = '-'

/-- `AnkiFlashcardGenerator.normalize_filename`. -/
def normalize_filename (text : String) : String :=
  String.mk ((collapseSpaces (stripTags text.data)).filter isFilenameChar)

/-- `os.path.join` (posix). -/
def joinPath (a b : String) : String := a ++ "/" ++ b

/-- `os.path.exists`. -/
def pathExists (p : String) (s : GenState) : Bool := s.files.contains p

/-- `_update_state`: set the current state and notify (recorded as an event). -/
def update_state (st : ProcessingState) (s : GenState) : GenState :=
  { s with state := st, trace := Event.stateEv st :: s.trace }

/-- `time.sleep`, recorded in the trace. -/
def sleepFor (seconds : ℚ) (s : GenState) : GenState :=
  { s with trace := Event.sleepEv seconds :: s.trace }

/-- `cancel()`: set the flag, then move to the `CANCELLED` state. -/
def cancel (s : GenState) : GenState :=
  update_state ProcessingState.cancelled { s with cancelled := true }

/-- `save_checkpoint`: write the full current mapping to the checkpoint file. -/
def save_checkpoint (s : GenState) : GenState :=
  { s with checkpointFile := some s.checkpoint }

/-- `shutil.copy2`: the destination path comes into existence. -/
def copyFile (src dest : String) (s : GenState) : GenState :=
  { s with files := dest :: s.files, trace := Event.copyEv src dest :: s.trace }

/-- `get_audio_cache_key`: md5 hex digest of the text. -/
def get_audio_cache_key (env : Env) (text : String) : String := env.md5hex text

/-- `get_cached_audio`: a metadata hit is only trusted if the artifact exists. -/
def get_cached_audio (env : Env) (cfg : GeneratorConfig) (s : GenState) (text : String) :
    Option String :=
  match dictLookup (get_audio_cache_key env text) s.cacheMetadata with
  | some cached_file =>
      if pathExists (joinPath cfg.audio_cache_dir cached_file) s then some cached_file else none
  | none => none

/-- `cache_audio`: copy the artifact into the cache directory under
`<key>.wav`, trying the plain path and then the doubled-extension path, and
record the metadata entry (`save_audio_cache_metadata` persists the same
in-memory map, which stays authoritative here). -/
def cache_audio (env : Env) (cfg : GeneratorConfig) (text source_filename : String)
    (s : GenState) : Option String × GenState :=
  let cache_key := get_audio_cache_key env text
  let source_path := joinPath cfg.audio_dir source_filename
  let cache_filename := cache_key ++ ".wav"
  let cache_path := joinPath cfg.audio_cache_dir cache_filename
  if pathExists source_path s then
    let s := copyFile source_path cache_path s
    (some cache_filename, { s with cacheMetadata := dictInsert cache_key cache_filename s.cacheMetadata })
  else if pathExists (source_path ++ ".wav") s then
    let s := copyFile (source_path ++ ".wav") cache_path s
    (some cache_filename, { s with cacheMetadata := dictInsert cache_key cache_filename s.cacheMetadata })
  else (none, s)

/-- Modelled from the spec: core.py does `from tts import generate as
tts_generate`, and run.py lists `tts.py` among its required custom modules, but
`tts.py` is not among the sources.  Per the spec the speech-synthesis backend
"accepts text + target filename, produces an audio artifact on disk; surfaces
rate-limit errors distinguishably from other failures", and the artifact is
sometimes saved with a doubled `.wav` extension (the quirk §4.5 tolerates).
Both the outcome of each call and the extension quirk come from the
environment, indexed by the running count of synthesis calls; a successful
call creates the artifact in the working audio directory. -/
def tts_generate (env : Env) (cfg : GeneratorConfig) (idx : Nat) (text fname : String)
    (s : GenState) : TtsResult × GenState :=
  let r := env.tts s.ttsCalls
  let doubled := env.ttsDoubled s.ttsCalls
  let s := { s with ttsCalls := s.ttsCalls + 1, trace := Event.ttsCall idx text fname :: s.trace }
  match r with
  | TtsResult.ok =>
      let path := joinPath cfg.audio_dir (if doubled then fname ++ ".wav.wav" else fname ++ ".wav")
      (TtsResult.ok, { s with files := path :: s.files })
  | r => (r, s)

/-- `generate_content_for_word`: checkpointed words are returned unchanged
without touching the backend; otherwise one backend call, with parse or call
failures folded into an error record. -/
def generate_content_for_word (env : Env) (word : String) (s : GenState) :
    Option FlashcardData × GenState :=
  match dictLookup word s.checkpoint with
  | some card => (some card, s)
  | none =>
      let s := { s with stats := { s.stats with current_word := some word } }
      let s := update_state ProcessingState.generating_content s
      let outcome := env.gemini s.geminiCalls
      let s := { s with geminiCalls := s.geminiCalls + 1,
                        trace := Event.geminiCall word :: s.trace }
      match outcome with
      | GeminiOutcome.ok w t da en =>
          (some { word := w, translation := t, example_sentence_da := da,
                  example_sentence_en := en }, s)
      | GeminiOutcome.jsonError =>
          (some { word := word, translation := "", example_sentence_da := "",
                  example_sentence_en := "",
                  error := some ("Failed to parse JSON for " ++ word) }, s)
      | GeminiOutcome.exn msg =>
          (some { word := word, translation := "", example_sentence_da := "",
                  example_sentence_en := "",
                  error := some ("Error generating content for " ++ word ++ ": " ++ msg) }, s)

/-- One iteration of `run`'s content loop for the word at 0-based position `j`:
generate, checkpoint on success / count on failure, bump `processed_words`. -/
def contentStep (env : Env) (word : String) (j : Nat) (s : GenState) :
    Option FlashcardData × GenState :=
  let r := generate_content_for_word env word s
  let s1 := r.2
  let s2 :=
    match r.1 with
    | some card =>
        if card.error = none then
          save_checkpoint { s1 with checkpoint := dictInsert word card s1.checkpoint }
        else
          { s1 with stats := { s1.stats with failed_words := s1.stats.failed_words + 1 } }
    | none => { s1 with stats := { s1.stats with failed_words := s1.stats.failed_words + 1 } }
  (r.1, { s2 with stats := { s2.stats with processed_words := j + 1 } })

/-- `run`'s content loop.  `cancelAt = some j` delivers a `cancel()` request at
the between-words boundary just before the word with 0-based index `j` is
examined (cancellation is cooperative and, for this loop, observed between
words). -/
def contentLoop (env : Env) (cancelAt : Option Nat) :
    List String → Nat → GenState → List FlashcardData × GenState
  | [], _, s => ([], s)
  | word :: rest, j, s =>
      let s := if cancelAt = some j then cancel s else s
      if s.cancelled then ([], s)
      else
        let r := contentStep env word j s
        let rr := contentLoop env cancelAt rest (j + 1) r.2
        (match r.1 with
         | some card => card :: rr.1
         | none => rr.1, rr.2)

/-- The sentence half of `generate_audio_for_flashcard` (from the
`if self.cancelled: return False` on line 381 onward): sentence audio is never
cached; one rate-limit retry after a 20 second backoff. -/
def sentence_audio (env : Env) (cfg : GeneratorConfig) (idx : Nat) (card : FlashcardData)
    (s : GenState) : FlashcardData × Bool × GenState :=
  if s.cancelled then (card, false, s)
  else
    let sentence_file := normalize_filename card.word ++ "_sentence"
    let s := update_state ProcessingState.generating_audio s
    let r := tts_generate env cfg idx card.example_sentence_da sentence_file s
    let s1 := r.2
    match r.1 with
    | TtsResult.ok =>
        let card := { card with audio_sentence_file := some (sentence_file ++ ".wav") }
        let s2 := if s1.cancelled then s1 else sleepFor cfg.tts_delay s1
        (card, true, s2)
    | TtsResult.clientError code msg =>
        if code = 429 then
          let s2 := sleepFor 20 s1
          let r2 := tts_generate env cfg idx card.example_sentence_da sentence_file s2
          let s3 := r2.2
          match r2.1 with
          | TtsResult.ok =>
              let card := { card with audio_sentence_file := some (sentence_file ++ ".wav") }
              (card, true, sleepFor cfg.tts_delay s3)
          | TtsResult.clientError _ m2 =>
              ({ card with error := some ("Failed to generate sentence audio: " ++ m2) }, false, s3)
          | TtsResult.otherError m2 =>
              ({ card with error := some ("Failed to generate sentence audio: " ++ m2) }, false, s3)
        else
          ({ card with error := some ("TTS error: " ++ msg) }, false, s1)
    | TtsResult.otherError msg =>
        ({ card with error := some ("Error generating sentence audio: " ++ msg) }, false, s1)

/-- `generate_audio_for_flashcard`: cache-first word audio with one rate-limit
retry (20 second backoff), then always-fresh sentence audio.  `idx` is the
ghost position of the record. -/
def generate_audio_for_flashcard (env : Env) (cfg : GeneratorConfig) (idx : Nat)
    (card : FlashcardData) (s : GenState) : FlashcardData × Bool × GenState :=
  if s.cancelled then (card, false, s)
  else if card.error.isSome then (card, false, s)
  else
    let word_file := normalize_filename card.word
    let word_path := joinPath cfg.audio_dir (word_file ++ ".wav")
    match get_cached_audio env cfg s card.word with
    | some word_cached =>
        let cache_path := joinPath cfg.audio_cache_dir word_cached
        let s := copyFile cache_path word_path s
        let card := { card with audio_word_file := some (word_file ++ ".wav") }
        sentence_audio env cfg idx card s
    | none =>
        let s := update_state ProcessingState.generating_audio s
        let r := tts_generate env cfg idx card.word word_file s
        let s1 := r.2
        match r.1 with
        | TtsResult.ok =>
            let card := { card with audio_word_file := some (word_file ++ ".wav") }
            let ca := cache_audio env cfg card.word (word_file ++ ".wav") s1
            let s2 := ca.2
            let s3 := if s2.cancelled then s2 else sleepFor cfg.tts_delay s2
            sentence_audio env cfg idx card s3
        | TtsResult.clientError code msg =>
            if code = 429 then
              let s2 := sleepFor 20 s1
              let r2 := tts_generate env cfg idx card.word word_file s2
              let s3 := r2.2
              match r2.1 with
              | TtsResult.ok =>
                  let card := { card with audio_word_file := some (word_file ++ ".wav") }
                  let ca := cache_audio env cfg card.word (word_file ++ ".wav") s3
                  sentence_audio env cfg idx card (sleepFor cfg.tts_delay ca.2)
              | TtsResult.clientError _ m2 =>
                  ({ card with error := some ("Failed to generate word audio: " ++ m2) }, false, s3)
              | TtsResult.otherError m2 =>
                  ({ card with error := some ("Failed to generate word audio: " ++ m2) }, false, s3)
            else
              ({ card with error := some ("TTS error: " ++ msg) }, false, s1)
        | TtsResult.otherError msg =>
            ({ card with error := some ("Error generating word audio: " ++ msg) }, false, s1)

/-- `run`'s audio loop over the flashcard list (`n` = its full length, `p` the
0-based position): skip errored records, recompute the time estimate before
each audio-stage call, count failures. -/
def audioLoop (env : Env) (cfg : GeneratorConfig) (n : Nat) :
    List FlashcardData → Nat → GenState → List FlashcardData × GenState
  | [], _, s => ([], s)
  | card :: rest, p, s =>
      if s.cancelled then (card :: rest, s)
      else if card.error.isSome then
        let rr := audioLoop env cfg n rest (p + 1) s
        (card :: rr.1, rr.2)
      else
        let est : ℚ := (((n - (p + 1)) * 2 : Nat) : ℚ) * cfg.tts_delay
        let s := { s with stats := { s.stats with estimated_time_remaining := some est } }
        let s := { s with trace := Event.audioCall p card.word (some est) :: s.trace }
        let g := generate_audio_for_flashcard env cfg p card s
        let s2 := if g.2.1 then g.2.2
                  else { g.2.2 with stats :=
                          { g.2.2.stats with failed_words := g.2.2.stats.failed_words + 1 } }
        let rr := audioLoop env cfg n rest (p + 1) s2
        (g.1 :: rr.1, rr.2)

/-- One audio file copy inside `copy_audio_to_anki`, with the doubled-extension
fallback. -/
def copy_one_audio (cfg : GeneratorConfig) (idx : Nat) (mediaDir : String)
    (fileOpt : Option String) (s : GenState) : GenState :=
  match fileOpt with
  | none => s
  | some f =>
      let source0 := joinPath cfg.audio_dir f
      let dest := joinPath mediaDir f
      let source := if pathExists source0 s then source0
                    else if pathExists (source0 ++ ".wav") s then source0 ++ ".wav"
                    else source0
      if pathExists source s then
        { s with files := dest :: s.files,
                 trace := Event.publishCopy idx source dest :: s.trace }
      else s

/-- The record loop of `copy_audio_to_anki`. -/
def copy_audio_loop (cfg : GeneratorConfig) (mediaDir : String) :
    List FlashcardData → Nat → GenState → GenState
  | [], _, s => s
  | card :: rest, p, s =>
      if card.error.isSome || s.cancelled then copy_audio_loop cfg mediaDir rest (p + 1) s
      else
        let s := copy_one_audio cfg p mediaDir card.audio_word_file s
        let s := copy_one_audio cfg p mediaDir card.audio_sentence_file s
        copy_audio_loop cfg mediaDir rest (p + 1) s

/-- `copy_audio_to_anki`: resolve the media directory (store query with
platform fallback, summarized by the environment) and stage the audio of every
non-errored record; `false` when the directory does not exist. -/
def copy_audio_to_anki (env : Env) (cfg : GeneratorConfig) (cards : List FlashcardData)
    (s : GenState) : Bool × GenState :=
  let s := update_state ProcessingState.copying_audio s
  if pathExists env.ankiMediaDir s then (true, copy_audio_loop cfg env.ankiMediaDir cards 0 s)
  else (false, s)

/-- One `addNote` submission (note payload elided; the event records the
model used, the forward/reverse role and the outcome). -/
def add_note_call (env : Env) (idx : Nat) (modelName : String) (isReverse : Bool)
    (s : GenState) : Option String × GenState :=
  let r := env.addNote s.noteCalls
  (r, { s with noteCalls := s.noteCalls + 1,
               trace := Event.noteAdd idx modelName isReverse r.isNone :: s.trace })

/-- The record loop of `send_to_anki`: forward note first; a forward failure
marks the record and skips its reverse note; a reverse failure is only
logged. -/
def send_loop (env : Env) (cfg : GeneratorConfig) :
    List FlashcardData → Nat → GenState → List FlashcardData × GenState
  | [], _, s => ([], s)
  | card :: rest, p, s =>
      if card.error.isSome || s.cancelled then
        let rr := send_loop env cfg rest (p + 1) s
        (card :: rr.1, rr.2)
      else
        let r := add_note_call env p cfg.model_name false s
        match r.1 with
        | some e =>
            let rr := send_loop env cfg rest (p + 1) r.2
            ({ card with error := some e } :: rr.1, rr.2)
        | none =>
            let s2 := if cfg.generate_reverse_cards then
                        (add_note_call env p cfg.reverse_model_name true r.2).2
                      else r.2
            let rr := send_loop env cfg rest (p + 1) s2
            (card :: rr.1, rr.2)

/-- `send_to_anki`. -/
def send_to_anki (env : Env) (cfg : GeneratorConfig) (cards : List FlashcardData)
    (s : GenState) : List FlashcardData × GenState :=
  send_loop env cfg cards 0 (update_state ProcessingState.sending_to_anki s)

/-- Result of `run()`: normal return, or a raised exception. -/
inductive RunOutcome where
  | ok
  | error (msg : String)
  deriving DecidableEq, Repr

/-- The word list `read_words` produces. -/
def runWords (env : Env) : List String := parse_words env.wordLines

/-- The state of a freshly constructed generator: `IDLE`, zeroed stats, the
cancellation flag clear, the loaded checkpoint and cache metadata, and the
initial filesystem. -/
def initS (checkpoint : List (String × FlashcardData)) (cacheMetadata : List (String × String))
    (files : List String) (checkpointFile : Option (List (String × FlashcardData))) : GenState :=
  { state := ProcessingState.idle, stats := {}, cancelled := false,
    checkpoint := checkpoint, cacheMetadata := cacheMetadata, files := files,
    checkpointFile := checkpointFile,
    geminiCalls := 0, ttsCalls := 0, noteCalls := 0, trace := [] }

/-- The content phase of `run`: `read_words` (state transition and total count)
followed by the content loop. -/
def runContent (env : Env) (cancelAt : Option Nat) (s0 : GenState) :
    List FlashcardData × GenState :=
  let s := update_state ProcessingState.reading_words s0
  let words := runWords env
  let s := { s with stats := { s.stats with total_words := words.length } }
  contentLoop env cancelAt words 0 s

/-- `run()`: the full pipeline, from reading the word list to the terminal
state.  A missing or empty word source raises and leaves state `FAILED`; a
cancellation observed between words returns with state `CANCELLED`; otherwise
content, audio (unless test mode), staging and publication run in order, the
state becomes `COMPLETED` and the checkpoint file is removed. -/
def run (env : Env) (cfg : GeneratorConfig) (cancelAt : Option Nat) (s0 : GenState) :
    RunOutcome × GenState :=
  if env.wordsFileExists = false then
    let s := update_state ProcessingState.reading_words s0
    (RunOutcome.error ("Words file not found: " ++ cfg.words_file),
     update_state ProcessingState.failed s)
  else if (runWords env).isEmpty then
    let s := update_state ProcessingState.reading_words s0
    let s := { s with stats := { s.stats with total_words := (runWords env).length } }
    (RunOutcome.error "No words to process", update_state ProcessingState.failed s)
  else
    let c := runContent env cancelAt s0
    let cards := c.1
    let s := c.2
    if s.cancelled then (RunOutcome.ok, s)
    else
      let a := if cfg.test_mode then (cards, s) else audioLoop env cfg cards.length cards 0 s
      let cards2 := a.1
      let s2 := a.2
      if s2.cancelled then (RunOutcome.ok, s2)
      else
        let cp := copy_audio_to_anki env cfg cards2 s2
        let s3 := if cp.1 then (send_to_anki env cfg cards2 cp.2).2 else cp.2
        let s4 := update_state ProcessingState.completed s3
        (RunOutcome.ok, { s4 with checkpointFile := none })

/-- The checkpoint contents the content loop builds over a list of fresh,
pairwise distinct words whose generations start at backend call `i`: one entry
per successful generation, in order. -/
def expectedCheckpoint (env : Env) : List String → Nat → List (String × FlashcardData)
  | [], _ => []
  | w :: rest, i =>
      match env.gemini i with
      | GeminiOutcome.ok a b c d =>
          (w, { word := a, translation := b, example_sentence_da := c,
                example_sentence_en := d }) :: expectedCheckpoint env rest (i + 1)
      | _ => expectedCheckpoint env rest (i + 1)

/-! ### Event classes and witness fixtures -/

/-- Events the content phase may append: backend calls and state changes. -/
def contentEv (e : Event) : Prop :=
  (∃ w, e = Event.geminiCall w) ∨ (∃ st, e = Event.stateEv st)

/-- Events one `generate_audio_for_flashcard` invocation on record `idx` may
append: synthesis calls for that record's word or sentence text, sleeps, cache
copies and state changes. -/
def gaEvent (idx : Nat) (card : FlashcardData) : Event → Prop
  | Event.ttsCall i t _ => i = idx ∧ (t = card.word ∨ t = card.example_sentence_da)
  | Event.sleepEv _ => True
  | Event.copyEv _ _ => True
  | Event.stateEv _ => True
  | _ => False

/-- Events the audio phase of `run` may append. -/
def audioEv (e : Event) : Prop :=
  match e with
  | Event.geminiCall _ => False
  | Event.publishCopy _ _ _ => False
  | Event.noteAdd _ _ _ _ => False
  | _ => True

/-- A trace event that is a synthesis call whose text is `w`. -/
def isWordTts (w : String) : Event → Bool
  | Event.ttsCall _ t _ => t == w
  | _ => false

/-- Events `sentence_audio` can add: synthesis calls carry the record's
sentence text, never its word. -/
def saEvent (idx : Nat) (card : FlashcardData) : Event → Prop
  | Event.ttsCall i t _ => i = idx ∧ t = card.example_sentence_da
  | Event.sleepEv _ => True
  | Event.copyEv _ _ => True
  | Event.stateEv _ => True
  | _ => False

/-- A concrete environment for witnesses: one word, successful content
generation, failing synthesis, absent store media directory. -/
def wEnv : Env :=
  { wordsFileExists := true
    wordLines := ["hund"]
    gemini := fun _ => GeminiOutcome.ok "hund" "dog" "En hund." "A dog."
    tts := fun _ => TtsResult.otherError "boom"
    ttsDoubled := fun _ => false
    addNote := fun _ => none
    ankiMediaDir := "/media"
    md5hex := fun t => t }

/-- A concrete flashcard record with no error. -/
def wCard : FlashcardData :=
  { word := "hund", translation := "dog", example_sentence_da := "En hund.",
    example_sentence_en := "A dog." }

/-- A concrete environment whose synthesis backend rate-limits the first call
and succeeds afterwards. -/
def wEnv429 : Env :=
  { wEnv with tts := fun n => if n == 0 then TtsResult.clientError 429 "rate" else TtsResult.ok }

/-- A concrete environment whose synthesis backend always succeeds. -/
def wEnvOk : Env := { wEnv with tts := fun _ => TtsResult.ok }

/-- A concrete environment whose note submissions always fail. -/
def wEnvNoteFail : Env := { wEnv with addNote := fun _ => some "duplicate" }

/-- A concrete configuration with reverse-card generation enabled. -/
def wCfgRev : GeneratorConfig := { generate_reverse_cards := true }

/-- A concrete environment whose content backend returns unparseable JSON. -/
def wEnvBadJson : Env := { wEnvOk with gemini := fun _ => GeminiOutcome.jsonError }

/-- A concrete three-word environment with successful content generation. -/
def wEnv3 : Env := { wEnvOk with wordLines := ["hund", "kat", "fisk"] }

/-! ### Trace-extension infrastructure -/

/-- `ExtWith P t t'`: the trace `t'` extends `t` by events all satisfying `P`. -/
def ExtWith (P : Event → Prop) (t t' : List Event) : Prop :=
  ∃ d, t' = d ++ t ∧ ∀ e ∈ d, P e

theorem extWith_refl (P : Event → Prop) (t : List Event) : ExtWith P t t :=
  ⟨[], rfl, by simp⟩

theorem extWith_trans {P : Event → Prop} {t t' t'' : List Event}
    (h1 : ExtWith P t t') (h2 : ExtWith P t' t'') : ExtWith P t t'' := by
  obtain ⟨d1, e1, p1⟩ := h1
  obtain ⟨d2, e2, p2⟩ := h2
  refine ⟨d2 ++ d1, by simp [e1, e2], ?_⟩
  intro e he
  rcases List.mem_append.mp he with h | h
  · exact p2 e h
  · exact p1 e h

theorem extWith_cons {P : Event → Prop} {t : List Event} {e : Event} (h : P e) :
    ExtWith P t (e :: t) :=
  ⟨[e], rfl, by simpa using h⟩

theorem extWith_mono {P Q : Event → Prop} (hpq : ∀ e, P e → Q e) {t t' : List Event}
    (h : ExtWith P t t') : ExtWith Q t t' := by
  obtain ⟨d, he, hp⟩ := h
  exact ⟨d, he, fun e hm => hpq e (hp e hm)⟩

theorem extWith_mem_old {P : Event → Prop} {t t' : List Event} (h : ExtWith P t t')
    {e : Event} (he : e ∈ t) : e ∈ t' := by
  obtain ⟨d, rfl, _⟩ := h
  exact List.mem_append.mpr (Or.inr he)

theorem extWith_mem_elim {P : Event → Prop} {t t' : List Event} (h : ExtWith P t t')
    {e : Event} (he : e ∈ t') : e ∈ t ∨ P e := by
  obtain ⟨d, rfl, hp⟩ := h
  rcases List.mem_append.mp he with h | h
  · exact Or.inr (hp e h)
  · exact Or.inl h

theorem extWith_not_mem {P : Event → Prop} {t t' : List Event} (h : ExtWith P t t')
    {e : Event} (hne : ¬ P e) (hnm : e ∉ t) : e ∉ t' := by
  intro hm
  rcases extWith_mem_elim h hm with h | h
  · exact hnm h
  · exact hne h

theorem extWith_filter {P : Event → Prop} {t t' : List Event} (h : ExtWith P t t')
    (q : Event → Bool) (hq : ∀ e, P e → q e = false) : t'.filter q = t.filter q := by
  obtain ⟨d, rfl, hp⟩ := h
  rw [List.filter_append]
  have : d.filter q = [] := List.filter_eq_nil_iff.mpr (fun e hm => by simp [hq e (hp e hm)])
  simp [this]

/-! ### Frame lemmas for the primitive operations -/

theorem tts_generate_snd (env : Env) (cfg : GeneratorConfig) (idx : Nat) (text fname : String)
    (s : GenState) :
    (tts_generate env cfg idx text fname s).2.trace = Event.ttsCall idx text fname :: s.trace ∧
    (tts_generate env cfg idx text fname s).2.ttsCalls = s.ttsCalls + 1 ∧
    (tts_generate env cfg idx text fname s).2.cancelled = s.cancelled ∧
    (tts_generate env cfg idx text fname s).2.stats = s.stats ∧
    (tts_generate env cfg idx text fname s).2.cacheMetadata = s.cacheMetadata ∧
    (tts_generate env cfg idx text fname s).2.checkpoint = s.checkpoint ∧
    (tts_generate env cfg idx text fname s).2.checkpointFile = s.checkpointFile ∧
    (tts_generate env cfg idx text fname s).2.noteCalls = s.noteCalls ∧
    (tts_generate env cfg idx text fname s).2.geminiCalls = s.geminiCalls ∧
    (tts_generate env cfg idx text fname s).2.state = s.state ∧
    (∀ f ∈ s.files, f ∈ (tts_generate env cfg idx text fname s).2.files) := by
  cases h : env.tts s.ttsCalls <;> simp [tts_generate, h]
  exact fun f hf => Or.inr hf

theorem tts_generate_fst (env : Env) (cfg : GeneratorConfig) (idx : Nat) (text fname : String)
    (s : GenState) : (tts_generate env cfg idx text fname s).1 = env.tts s.ttsCalls := by
  cases h : env.tts s.ttsCalls <;> simp [tts_generate, h]

theorem cache_audio_snd (env : Env) (cfg : GeneratorConfig) (text source_filename : String)
    (s : GenState) :
    ExtWith (fun e => ∃ a b, e = Event.copyEv a b) s.trace
      (cache_audio env cfg text source_filename s).2.trace ∧
    (cache_audio env cfg text source_filename s).2.ttsCalls = s.ttsCalls ∧
    (cache_audio env cfg text source_filename s).2.cancelled = s.cancelled ∧
    (cache_audio env cfg text source_filename s).2.stats = s.stats ∧
    (cache_audio env cfg text source_filename s).2.checkpoint = s.checkpoint ∧
    (cache_audio env cfg text source_filename s).2.checkpointFile = s.checkpointFile ∧
    (cache_audio env cfg text source_filename s).2.noteCalls = s.noteCalls ∧
    (cache_audio env cfg text source_filename s).2.geminiCalls = s.geminiCalls ∧
    (cache_audio env cfg text source_filename s).2.state = s.state ∧
    (∀ f ∈ s.files, f ∈ (cache_audio env cfg text source_filename s).2.files) := by
  simp only [cache_audio]
  split_ifs
  · exact ⟨extWith_cons ⟨_, _, rfl⟩, by simp [copyFile]; exact fun f hf => Or.inr hf⟩
  · exact ⟨extWith_cons ⟨_, _, rfl⟩, by simp [copyFile]; exact fun f hf => Or.inr hf⟩
  · exact ⟨extWith_refl _ _, by simp⟩

/-! ### Association-list lemmas -/

theorem dictLookup_insert_self {β : Type} (k : String) (v : β) :
    ∀ l : List (String × β), dictLookup k (dictInsert k v l) = some v := by
  intro l
  induction l with
  | nil => simp [dictLookup, dictInsert]
  | cons p rest ih =>
      by_cases h : p.1 = k <;> simp [dictLookup, dictInsert, h, ih]

theorem dictInsert_of_lookup_eq {β : Type} (k : String) (v : β) :
    ∀ l : List (String × β), dictLookup k l = some v → dictInsert k v l = l := by
  intro l
  induction l with
  | nil => intro h; simp [dictLookup] at h
  | cons p rest ih =>
      obtain ⟨a, b⟩ := p
      intro h
      by_cases hp : a = k
      · simp [dictLookup, hp] at h
        simp [dictInsert, hp, h]
      · simp [dictLookup, hp] at h
        simp [dictInsert, hp, ih h]

theorem dictLookup_insert_ne {β : Type} (k k' : String) (v : β) (hne : k' ≠ k) :
    ∀ l : List (String × β), dictLookup k' (dictInsert k v l) = dictLookup k' l := by
  intro l
  induction l with
  | nil => simp [dictLookup, dictInsert, Ne.symm hne]
  | cons p rest ih =>
      obtain ⟨a, b⟩ := p
      by_cases hp : a = k
      · subst hp
        simp [dictLookup, dictInsert, Ne.symm hne]
      · simp [dictLookup, dictInsert, hp, ih]

theorem dictInsert_of_lookup_none {β : Type} (k : String) (v : β) :
    ∀ l : List (String × β), dictLookup k l = none → dictInsert k v l = l ++ [(k, v)] := by
  intro l
  induction l with
  | nil => intro _; simp [dictInsert]
  | cons p rest ih =>
      intro h
      by_cases hp : p.1 = k
      · simp [dictLookup, hp] at h
      · simp [dictLookup, hp] at h
        simp [dictInsert, hp, ih h]

/-! ### Content-phase frame lemmas -/

theorem generate_content_snd (env : Env) (word : String) (s : GenState) :
    ExtWith contentEv s.trace (generate_content_for_word env word s).2.trace ∧
    (generate_content_for_word env word s).2.cancelled = s.cancelled ∧
    (generate_content_for_word env word s).2.ttsCalls = s.ttsCalls ∧
    (generate_content_for_word env word s).2.noteCalls = s.noteCalls ∧
    (generate_content_for_word env word s).2.checkpoint = s.checkpoint ∧
    (generate_content_for_word env word s).2.checkpointFile = s.checkpointFile ∧
    (generate_content_for_word env word s).2.files = s.files ∧
    (generate_content_for_word env word s).2.cacheMetadata = s.cacheMetadata ∧
    (generate_content_for_word env word s).2.stats.skipped_words = s.stats.skipped_words := by
  unfold generate_content_for_word
  split
  · exact ⟨extWith_refl _ _, by simp⟩
  · cases h : env.gemini s.geminiCalls <;>
      simp [update_state, h] <;>
      exact extWith_trans (extWith_cons (Or.inr ⟨_, rfl⟩)) (extWith_cons (Or.inl ⟨_, rfl⟩))

theorem contentStep_snd (env : Env) (word : String) (j : Nat) (s : GenState) :
    ExtWith contentEv s.trace (contentStep env word j s).2.trace ∧
    (contentStep env word j s).2.cancelled = s.cancelled ∧
    (contentStep env word j s).2.ttsCalls = s.ttsCalls ∧
    (contentStep env word j s).2.noteCalls = s.noteCalls ∧
    (contentStep env word j s).2.files = s.files ∧
    (contentStep env word j s).2.cacheMetadata = s.cacheMetadata ∧
    (contentStep env word j s).2.stats.skipped_words = s.stats.skipped_words := by
  obtain ⟨he, hc, ht, hn, _, _, hf, hm, hsk⟩ := generate_content_snd env word s
  rcases hg : generate_content_for_word env word s with ⟨cardOpt, s1⟩
  rw [hg] at he hc ht hn hf hm hsk
  simp only at he hc ht hn hf hm hsk
  unfold contentStep
  rw [hg]
  cases cardOpt with
  | none =>
      refine ⟨?_, ?_, ?_, ?_, ?_, ?_, ?_⟩ <;> simp_all
  | some card =>
      by_cases herr : card.error = none <;>
        (refine ⟨?_, ?_, ?_, ?_, ?_, ?_, ?_⟩ <;> simp_all [save_checkpoint])

theorem contentLoop_snd (env : Env) (ca : Option Nat) :
    ∀ (ws : List String) (j : Nat) (s : GenState),
    ExtWith contentEv s.trace (contentLoop env ca ws j s).2.trace ∧
    (contentLoop env ca ws j s).2.ttsCalls = s.ttsCalls ∧
    (contentLoop env ca ws j s).2.noteCalls = s.noteCalls ∧
    (contentLoop env ca ws j s).2.files = s.files ∧
    (contentLoop env ca ws j s).2.cacheMetadata = s.cacheMetadata ∧
    (contentLoop env ca ws j s).2.stats.skipped_words = s.stats.skipped_words := by
  intro ws
  induction ws with
  | nil => intro j s; exact ⟨extWith_refl _ _, by simp [contentLoop]⟩
  | cons w rest ih =>
      intro j s
      simp only [contentLoop]
      split_ifs with hca hcanc hcanc
      · -- cancel delivered, flag observed
        exact ⟨extWith_cons (Or.inr ⟨_, rfl⟩), by simp [cancel, update_state]⟩
      · -- cancel delivered but flag not observed: impossible (cancel sets it),
        -- handled uniformly anyway
        obtain ⟨he1, hc1, ht1, hn1, hf1, hm1, hsk1⟩ :=
          contentStep_snd env w j (cancel s)
        obtain ⟨he2, ht2, hn2, hf2, hm2, hsk2⟩ :=
          ih (j + 1) (contentStep env w j (cancel s)).2
        refine ⟨?_, ?_⟩
        · exact extWith_trans (extWith_cons (Or.inr ⟨_, rfl⟩)) (extWith_trans he1 he2)
        · simp_all [cancel, update_state]
      · exact ⟨extWith_refl _ _, by simp⟩
      · obtain ⟨he1, hc1, ht1, hn1, hf1, hm1, hsk1⟩ := contentStep_snd env w j s
        obtain ⟨he2, ht2, hn2, hf2, hm2, hsk2⟩ := ih (j + 1) (contentStep env w j s).2
        exact ⟨extWith_trans he1 he2, by simp_all⟩

theorem contentLoop_cancelled_mono (env : Env) (ca : Option Nat) :
    ∀ (ws : List String) (j : Nat) (s : GenState), s.cancelled = true →
    (contentLoop env ca ws j s).2.cancelled = true := by
  intro ws
  cases ws with
  | nil => intro j s h; simpa [contentLoop] using h
  | cons w rest =>
      intro j s h
      simp only [contentLoop]
      split_ifs <;> simp_all [cancel, update_state]

theorem contentLoop_cancel_state (env : Env) (ca : Option Nat) :
    ∀ (ws : List String) (j : Nat) (s : GenState), s.cancelled = false →
    (contentLoop env ca ws j s).2.cancelled = true →
    (contentLoop env ca ws j s).2.state = ProcessingState.cancelled := by
  intro ws
  induction ws with
  | nil => intro j s h hc; simp [contentLoop] at hc; simp_all [contentLoop]
  | cons w rest ih =>
      intro j s h hc
      simp only [contentLoop] at hc ⊢
      split_ifs at hc ⊢ with hca hcanc hcanc
      · simp [cancel, update_state]
      · simp [cancel, update_state] at hcanc
      · simp_all
      · obtain ⟨_, hc1, _, _, _, _, _⟩ := contentStep_snd env w j s
        exact ih (j + 1) _ (hc1.trans h) hc

/-! ### Audio-phase frame lemmas -/

theorem extWith_cons_of {P : Event → Prop} {t t' : List Event} {e : Event}
    (h : ExtWith P t t') (he : P e) : ExtWith P t (e :: t') :=
  extWith_trans h (extWith_cons he)

theorem tts_trace (env : Env) (cfg : GeneratorConfig) (idx : Nat) (text fname : String)
    (s : GenState) :
    (tts_generate env cfg idx text fname s).2.trace = Event.ttsCall idx text fname :: s.trace :=
  (tts_generate_snd env cfg idx text fname s).1

theorem tts_ttsCalls (env : Env) (cfg : GeneratorConfig) (idx : Nat) (text fname : String)
    (s : GenState) : (tts_generate env cfg idx text fname s).2.ttsCalls = s.ttsCalls + 1 :=
  (tts_generate_snd env cfg idx text fname s).2.1

theorem tts_cancelled (env : Env) (cfg : GeneratorConfig) (idx : Nat) (text fname : String)
    (s : GenState) : (tts_generate env cfg idx text fname s).2.cancelled = s.cancelled :=
  (tts_generate_snd env cfg idx text fname s).2.2.1

theorem tts_stats (env : Env) (cfg : GeneratorConfig) (idx : Nat) (text fname : String)
    (s : GenState) : (tts_generate env cfg idx text fname s).2.stats = s.stats :=
  (tts_generate_snd env cfg idx text fname s).2.2.2.1

theorem tts_meta (env : Env) (cfg : GeneratorConfig) (idx : Nat) (text fname : String)
    (s : GenState) : (tts_generate env cfg idx text fname s).2.cacheMetadata = s.cacheMetadata :=
  (tts_generate_snd env cfg idx text fname s).2.2.2.2.1

theorem tts_checkpoint (env : Env) (cfg : GeneratorConfig) (idx : Nat) (text fname : String)
    (s : GenState) : (tts_generate env cfg idx text fname s).2.checkpoint = s.checkpoint :=
  (tts_generate_snd env cfg idx text fname s).2.2.2.2.2.1

theorem tts_cpFile (env : Env) (cfg : GeneratorConfig) (idx : Nat) (text fname : String)
    (s : GenState) : (tts_generate env cfg idx text fname s).2.checkpointFile = s.checkpointFile :=
  (tts_generate_snd env cfg idx text fname s).2.2.2.2.2.2.1

theorem tts_noteCalls (env : Env) (cfg : GeneratorConfig) (idx : Nat) (text fname : String)
    (s : GenState) : (tts_generate env cfg idx text fname s).2.noteCalls = s.noteCalls :=
  (tts_generate_snd env cfg idx text fname s).2.2.2.2.2.2.2.1

theorem tts_geminiCalls (env : Env) (cfg : GeneratorConfig) (idx : Nat) (text fname : String)
    (s : GenState) : (tts_generate env cfg idx text fname s).2.geminiCalls = s.geminiCalls :=
  (tts_generate_snd env cfg idx text fname s).2.2.2.2.2.2.2.2.1

theorem tts_files_sub (env : Env) (cfg : GeneratorConfig) (idx : Nat) (text fname : String)
    (s : GenState) : ∀ f ∈ s.files, f ∈ (tts_generate env cfg idx text fname s).2.files :=
  (tts_generate_snd env cfg idx text fname s).2.2.2.2.2.2.2.2.2.2

theorem cache_ext (env : Env) (cfg : GeneratorConfig) (text source_filename : String)
    (s : GenState) :
    ExtWith (fun e => ∃ a b, e = Event.copyEv a b) s.trace
      (cache_audio env cfg text source_filename s).2.trace :=
  (cache_audio_snd env cfg text source_filename s).1

theorem cache_ttsCalls (env : Env) (cfg : GeneratorConfig) (text source_filename : String)
    (s : GenState) : (cache_audio env cfg text source_filename s).2.ttsCalls = s.ttsCalls :=
  (cache_audio_snd env cfg text source_filename s).2.1

theorem cache_cancelled (env : Env) (cfg : GeneratorConfig) (text source_filename : String)
    (s : GenState) : (cache_audio env cfg text source_filename s).2.cancelled = s.cancelled :=
  (cache_audio_snd env cfg text source_filename s).2.2.1

theorem cache_stats (env : Env) (cfg : GeneratorConfig) (text source_filename : String)
    (s : GenState) : (cache_audio env cfg text source_filename s).2.stats = s.stats :=
  (cache_audio_snd env cfg text source_filename s).2.2.2.1

theorem cache_checkpoint (env : Env) (cfg : GeneratorConfig) (text source_filename : String)
    (s : GenState) : (cache_audio env cfg text source_filename s).2.checkpoint = s.checkpoint :=
  (cache_audio_snd env cfg text source_filename s).2.2.2.2.1

theorem cache_cpFile (env : Env) (cfg : GeneratorConfig) (text source_filename : String)
    (s : GenState) :
    (cache_audio env cfg text source_filename s).2.checkpointFile = s.checkpointFile :=
  (cache_audio_snd env cfg text source_filename s).2.2.2.2.2.1

theorem cache_noteCalls (env : Env) (cfg : GeneratorConfig) (text source_filename : String)
    (s : GenState) : (cache_audio env cfg text source_filename s).2.noteCalls = s.noteCalls :=
  (cache_audio_snd env cfg text source_filename s).2.2.2.2.2.2.1

theorem cache_geminiCalls (env : Env) (cfg : GeneratorConfig) (text source_filename : String)
    (s : GenState) : (cache_audio env cfg text source_filename s).2.geminiCalls = s.geminiCalls :=
  (cache_audio_snd env cfg text source_filename s).2.2.2.2.2.2.2.1

theorem cache_files_sub (env : Env) (cfg : GeneratorConfig) (text source_filename : String)
    (s : GenState) : ∀ f ∈ s.files, f ∈ (cache_audio env cfg text source_filename s).2.files :=
  (cache_audio_snd env cfg text source_filename s).2.2.2.2.2.2.2.2.2

theorem extWith_cons_eq {P : Event → Prop} {t t' : List Event} {e : Event}
    (h : t' = e :: t) (he : P e) : ExtWith P t t' := h ▸ extWith_cons he

theorem sa_cancelled (env : Env) (cfg : GeneratorConfig) (idx : Nat) (card : FlashcardData)
    (s : GenState) : (sentence_audio env cfg idx card s).2.2.cancelled = s.cancelled := by
  by_cases h : s.cancelled = true
  · unfold sentence_audio; rw [if_pos h]
  · unfold sentence_audio
    rw [if_neg h]
    dsimp only
    split
    · simp [tts_cancelled, sleepFor, update_state, h]
    · split_ifs with h429
      · split <;> simp [tts_cancelled, sleepFor, update_state]
      · simp [tts_cancelled, update_state]
    · simp [tts_cancelled, update_state]

theorem sa_noteCalls (env : Env) (cfg : GeneratorConfig) (idx : Nat) (card : FlashcardData)
    (s : GenState) : (sentence_audio env cfg idx card s).2.2.noteCalls = s.noteCalls := by
  by_cases h : s.cancelled = true
  · unfold sentence_audio; rw [if_pos h]
  · unfold sentence_audio
    rw [if_neg h]
    dsimp only
    split
    · simp [tts_noteCalls, tts_cancelled, sleepFor, update_state, h]
    · split_ifs with h429
      · split <;> simp [tts_noteCalls, sleepFor, update_state]
      · simp [tts_noteCalls, update_state]
    · simp [tts_noteCalls, update_state]

theorem sa_geminiCalls (env : Env) (cfg : GeneratorConfig) (idx : Nat) (card : FlashcardData)
    (s : GenState) : (sentence_audio env cfg idx card s).2.2.geminiCalls = s.geminiCalls := by
  by_cases h : s.cancelled = true
  · unfold sentence_audio; rw [if_pos h]
  · unfold sentence_audio
    rw [if_neg h]
    dsimp only
    split
    · simp [tts_geminiCalls, tts_cancelled, sleepFor, update_state, h]
    · split_ifs with h429
      · split <;> simp [tts_geminiCalls, sleepFor, update_state]
      · simp [tts_geminiCalls, update_state]
    · simp [tts_geminiCalls, update_state]

theorem sa_checkpoint (env : Env) (cfg : GeneratorConfig) (idx : Nat) (card : FlashcardData)
    (s : GenState) : (sentence_audio env cfg idx card s).2.2.checkpoint = s.checkpoint := by
  by_cases h : s.cancelled = true
  · unfold sentence_audio; rw [if_pos h]
  · unfold sentence_audio
    rw [if_neg h]
    dsimp only
    split
    · simp [tts_checkpoint, tts_cancelled, sleepFor, update_state, h]
    · split_ifs with h429
      · split <;> simp [tts_checkpoint, sleepFor, update_state]
      · simp [tts_checkpoint, update_state]
    · simp [tts_checkpoint, update_state]

theorem sa_cpFile (env : Env) (cfg : GeneratorConfig) (idx : Nat) (card : FlashcardData)
    (s : GenState) : (sentence_audio env cfg idx card s).2.2.checkpointFile = s.checkpointFile := by
  by_cases h : s.cancelled = true
  · unfold sentence_audio; rw [if_pos h]
  · unfold sentence_audio
    rw [if_neg h]
    dsimp only
    split
    · simp [tts_cpFile, tts_cancelled, sleepFor, update_state, h]
    · split_ifs with h429
      · split <;> simp [tts_cpFile, sleepFor, update_state]
      · simp [tts_cpFile, update_state]
    · simp [tts_cpFile, update_state]

theorem sa_meta (env : Env) (cfg : GeneratorConfig) (idx : Nat) (card : FlashcardData)
    (s : GenState) : (sentence_audio env cfg idx card s).2.2.cacheMetadata = s.cacheMetadata := by
  by_cases h : s.cancelled = true
  · unfold sentence_audio; rw [if_pos h]
  · unfold sentence_audio
    rw [if_neg h]
    dsimp only
    split
    · simp [tts_meta, tts_cancelled, sleepFor, update_state, h]
    · split_ifs with h429
      · split <;> simp [tts_meta, sleepFor, update_state]
      · simp [tts_meta, update_state]
    · simp [tts_meta, update_state]

theorem sa_stats (env : Env) (cfg : GeneratorConfig) (idx : Nat) (card : FlashcardData)
    (s : GenState) : (sentence_audio env cfg idx card s).2.2.stats = s.stats := by
  by_cases h : s.cancelled = true
  · unfold sentence_audio; rw [if_pos h]
  · unfold sentence_audio
    rw [if_neg h]
    dsimp only
    split
    · simp [tts_stats, tts_cancelled, sleepFor, update_state, h]
    · split_ifs with h429
      · split <;> simp [tts_stats, sleepFor, update_state]
      · simp [tts_stats, update_state]
    · simp [tts_stats, update_state]

theorem sa_files_sub (env : Env) (cfg : GeneratorConfig) (idx : Nat) (card : FlashcardData)
    (s : GenState) : ∀ f ∈ s.files, f ∈ (sentence_audio env cfg idx card s).2.2.files := by
  by_cases h : s.cancelled = true
  · unfold sentence_audio; rw [if_pos h]; exact fun f hf => hf
  · unfold sentence_audio
    rw [if_neg h]
    dsimp only
    split
    · intro f hf
      simp only [tts_cancelled, update_state, sleepFor]
      split <;> exact tts_files_sub _ _ _ _ _ _ f hf
    · split_ifs with h429
      · split <;>
          exact fun f hf => tts_files_sub _ _ _ _ _ _ f (tts_files_sub _ _ _ _ _ _ f hf)
      · exact fun f hf => tts_files_sub _ _ _ _ _ _ f hf
    · exact fun f hf => tts_files_sub _ _ _ _ _ _ f hf

theorem sa_word (env : Env) (cfg : GeneratorConfig) (idx : Nat) (card : FlashcardData)
    (s : GenState) : (sentence_audio env cfg idx card s).1.word = card.word := by
  by_cases h : s.cancelled = true
  · unfold sentence_audio; rw [if_pos h]
  · unfold sentence_audio
    rw [if_neg h]
    dsimp only
    split
    · rfl
    · split_ifs with h429
      · split <;> rfl
      · rfl
    · rfl

theorem sa_awf (env : Env) (cfg : GeneratorConfig) (idx : Nat) (card : FlashcardData)
    (s : GenState) :
    (sentence_audio env cfg idx card s).1.audio_word_file = card.audio_word_file := by
  by_cases h : s.cancelled = true
  · unfold sentence_audio; rw [if_pos h]
  · unfold sentence_audio
    rw [if_neg h]
    dsimp only
    split
    · rfl
    · split_ifs with h429
      · split <;> rfl
      · rfl
    · rfl

theorem sa_sent (env : Env) (cfg : GeneratorConfig) (idx : Nat) (card : FlashcardData)
    (s : GenState) :
    (sentence_audio env cfg idx card s).1.example_sentence_da = card.example_sentence_da := by
  by_cases h : s.cancelled = true
  · unfold sentence_audio; rw [if_pos h]
  · unfold sentence_audio
    rw [if_neg h]
    dsimp only
    split
    · rfl
    · split_ifs with h429
      · split <;> rfl
      · rfl
    · rfl

theorem sa_ext (env : Env) (cfg : GeneratorConfig) (idx : Nat) (card : FlashcardData)
    (s : GenState) :
    ExtWith (gaEvent idx card) s.trace (sentence_audio env cfg idx card s).2.2.trace := by
  by_cases h : s.cancelled = true
  · unfold sentence_audio; rw [if_pos h]; exact extWith_refl _ _
  · unfold sentence_audio
    rw [if_neg h]
    dsimp only
    split
    · simp only [tts_cancelled, update_state, sleepFor, tts_trace, h, Bool.false_eq_true,
        if_false]
      exact extWith_cons_of (extWith_cons_of (extWith_cons_of (extWith_refl _ _) trivial)
        ⟨rfl, Or.inr rfl⟩) trivial
    · split_ifs with h429
      · split <;>
          simp only [sleepFor, tts_trace, update_state] <;>
          first
          | exact extWith_cons_of (extWith_cons_of (extWith_cons_of (extWith_cons_of
              (extWith_cons_of (extWith_refl _ _) trivial) ⟨rfl, Or.inr rfl⟩) trivial)
              ⟨rfl, Or.inr rfl⟩) trivial
          | exact extWith_cons_of (extWith_cons_of (extWith_cons_of (extWith_cons_of
              (extWith_refl _ _) trivial) ⟨rfl, Or.inr rfl⟩) trivial) ⟨rfl, Or.inr rfl⟩
      · simp only [tts_trace, update_state]
        exact extWith_cons_of (extWith_cons_of (extWith_refl _ _) trivial) ⟨rfl, Or.inr rfl⟩
    · simp only [tts_trace, update_state]
      exact extWith_cons_of (extWith_cons_of (extWith_refl _ _) trivial) ⟨rfl, Or.inr rfl⟩

theorem ga_cancelled (env : Env) (cfg : GeneratorConfig) (idx : Nat) (card : FlashcardData)
    (s : GenState) :
    (generate_audio_for_flashcard env cfg idx card s).2.2.cancelled = s.cancelled := by
  unfold generate_audio_for_flashcard
  by_cases h1 : s.cancelled = true
  · rw [if_pos h1]
  · rw [if_neg h1]
    by_cases h2 : card.error.isSome = true
    · rw [if_pos h2]
    · rw [if_neg h2]
      dsimp only
      split
      · simp [sa_cancelled, copyFile]
      · split
        · simp [sa_cancelled, cache_cancelled, tts_cancelled, sleepFor, update_state, h1]
        · split_ifs with h429
          · split
            · simp [sa_cancelled, cache_cancelled, tts_cancelled, sleepFor, update_state]
            · simp [tts_cancelled, sleepFor, update_state]
            · simp [tts_cancelled, sleepFor, update_state]
          · simp [tts_cancelled, update_state]
        · simp [tts_cancelled, update_state]

theorem ga_noteCalls (env : Env) (cfg : GeneratorConfig) (idx : Nat) (card : FlashcardData)
    (s : GenState) :
    (generate_audio_for_flashcard env cfg idx card s).2.2.noteCalls = s.noteCalls := by
  unfold generate_audio_for_flashcard
  by_cases h1 : s.cancelled = true
  · rw [if_pos h1]
  · rw [if_neg h1]
    by_cases h2 : card.error.isSome = true
    · rw [if_pos h2]
    · rw [if_neg h2]
      dsimp only
      split
      · simp [sa_noteCalls, copyFile]
      · split
        · simp [sa_noteCalls, cache_noteCalls, cache_cancelled, tts_noteCalls, tts_cancelled,
            sleepFor, update_state, h1]
        · split_ifs with h429
          · split
            · simp [sa_noteCalls, cache_noteCalls, tts_noteCalls, sleepFor, update_state]
            · simp [tts_noteCalls, sleepFor, update_state]
            · simp [tts_noteCalls, sleepFor, update_state]
          · simp [tts_noteCalls, update_state]
        · simp [tts_noteCalls, update_state]

theorem ga_geminiCalls (env : Env) (cfg : GeneratorConfig) (idx : Nat) (card : FlashcardData)
    (s : GenState) :
    (generate_audio_for_flashcard env cfg idx card s).2.2.geminiCalls = s.geminiCalls := by
  unfold generate_audio_for_flashcard
  by_cases h1 : s.cancelled = true
  · rw [if_pos h1]
  · rw [if_neg h1]
    by_cases h2 : card.error.isSome = true
    · rw [if_pos h2]
    · rw [if_neg h2]
      dsimp only
      split
      · simp [sa_geminiCalls, copyFile]
      · split
        · simp [sa_geminiCalls, cache_geminiCalls, cache_cancelled, tts_geminiCalls,
            tts_cancelled, sleepFor, update_state, h1]
        · split_ifs with h429
          · split
            · simp [sa_geminiCalls, cache_geminiCalls, tts_geminiCalls, sleepFor, update_state]
            · simp [tts_geminiCalls, sleepFor, update_state]
            · simp [tts_geminiCalls, sleepFor, update_state]
          · simp [tts_geminiCalls, update_state]
        · simp [tts_geminiCalls, update_state]

theorem ga_checkpoint (env : Env) (cfg : GeneratorConfig) (idx : Nat) (card : FlashcardData)
    (s : GenState) :
    (generate_audio_for_flashcard env cfg idx card s).2.2.checkpoint = s.checkpoint := by
  unfold generate_audio_for_flashcard
  by_cases h1 : s.cancelled = true
  · rw [if_pos h1]
  · rw [if_neg h1]
    by_cases h2 : card.error.isSome = true
    · rw [if_pos h2]
    · rw [if_neg h2]
      dsimp only
      split
      · simp [sa_checkpoint, copyFile]
      · split
        · simp [sa_checkpoint, cache_checkpoint, cache_cancelled, tts_checkpoint, tts_cancelled,
            sleepFor, update_state, h1]
        · split_ifs with h429
          · split
            · simp [sa_checkpoint, cache_checkpoint, tts_checkpoint, sleepFor, update_state]
            · simp [tts_checkpoint, sleepFor, update_state]
            · simp [tts_checkpoint, sleepFor, update_state]
          · simp [tts_checkpoint, update_state]
        · simp [tts_checkpoint, update_state]

theorem ga_cpFile (env : Env) (cfg : GeneratorConfig) (idx : Nat) (card : FlashcardData)
    (s : GenState) :
    (generate_audio_for_flashcard env cfg idx card s).2.2.checkpointFile = s.checkpointFile := by
  unfold generate_audio_for_flashcard
  by_cases h1 : s.cancelled = true
  · rw [if_pos h1]
  · rw [if_neg h1]
    by_cases h2 : card.error.isSome = true
    · rw [if_pos h2]
    · rw [if_neg h2]
      dsimp only
      split
      · simp [sa_cpFile, copyFile]
      · split
        · simp [sa_cpFile, cache_cpFile, cache_cancelled, tts_cpFile, tts_cancelled,
            sleepFor, update_state, h1]
        · split_ifs with h429
          · split
            · simp [sa_cpFile, cache_cpFile, tts_cpFile, sleepFor, update_state]
            · simp [tts_cpFile, sleepFor, update_state]
            · simp [tts_cpFile, sleepFor, update_state]
          · simp [tts_cpFile, update_state]
        · simp [tts_cpFile, update_state]

theorem ga_stats (env : Env) (cfg : GeneratorConfig) (idx : Nat) (card : FlashcardData)
    (s : GenState) :
    (generate_audio_for_flashcard env cfg idx card s).2.2.stats = s.stats := by
  unfold generate_audio_for_flashcard
  by_cases h1 : s.cancelled = true
  · rw [if_pos h1]
  · rw [if_neg h1]
    by_cases h2 : card.error.isSome = true
    · rw [if_pos h2]
    · rw [if_neg h2]
      dsimp only
      split
      · simp [sa_stats, copyFile]
      · split
        · simp [sa_stats, cache_stats, cache_cancelled, tts_stats, tts_cancelled,
            sleepFor, update_state, h1]
        · split_ifs with h429
          · split
            · simp [sa_stats, cache_stats, tts_stats, sleepFor, update_state]
            · simp [tts_stats, sleepFor, update_state]
            · simp [tts_stats, sleepFor, update_state]
          · simp [tts_stats, update_state]
        · simp [tts_stats, update_state]

theorem ga_files_sub (env : Env) (cfg : GeneratorConfig) (idx : Nat) (card : FlashcardData)
    (s : GenState) :
    ∀ f ∈ s.files, f ∈ (generate_audio_for_flashcard env cfg idx card s).2.2.files := by
  unfold generate_audio_for_flashcard
  by_cases h1 : s.cancelled = true
  · rw [if_pos h1]; exact fun f hf => hf
  · rw [if_neg h1]
    by_cases h2 : card.error.isSome = true
    · rw [if_pos h2]; exact fun f hf => hf
    · rw [if_neg h2]
      dsimp only
      split
      · exact fun f hf => sa_files_sub _ _ _ _ _ f (by simp [copyFile]; exact Or.inr hf)
      · split
        · intro f hf
          apply sa_files_sub
          simp only [cache_cancelled, tts_cancelled, update_state, h1, Bool.false_eq_true,
            if_false, sleepFor]
          exact cache_files_sub _ _ _ _ _ f (tts_files_sub _ _ _ _ _ _ f hf)
        · split_ifs with h429
          · split
            · exact fun f hf => sa_files_sub _ _ _ _ _ f
                (cache_files_sub _ _ _ _ _ f
                  (tts_files_sub _ _ _ _ _ _ f (tts_files_sub _ _ _ _ _ _ f hf)))
            · exact fun f hf => tts_files_sub _ _ _ _ _ _ f (tts_files_sub _ _ _ _ _ _ f hf)
            · exact fun f hf => tts_files_sub _ _ _ _ _ _ f (tts_files_sub _ _ _ _ _ _ f hf)
          · exact fun f hf => tts_files_sub _ _ _ _ _ _ f hf
        · exact fun f hf => tts_files_sub _ _ _ _ _ _ f hf

theorem gaEvent_def_congr (idx : Nat) (card card' : FlashcardData)
    (hw : card'.word = card.word) (hs : card'.example_sentence_da = card.example_sentence_da) :
    ∀ e, gaEvent idx card' e → gaEvent idx card e := by
  intro e
  cases e <;> simp [gaEvent, hw, hs]

theorem ga_ext (env : Env) (cfg : GeneratorConfig) (idx : Nat) (card : FlashcardData)
    (s : GenState) :
    ExtWith (gaEvent idx card) s.trace
      (generate_audio_for_flashcard env cfg idx card s).2.2.trace := by
  unfold generate_audio_for_flashcard
  by_cases h1 : s.cancelled = true
  · rw [if_pos h1]; exact extWith_refl _ _
  · rw [if_neg h1]
    by_cases h2 : card.error.isSome = true
    · rw [if_pos h2]; exact extWith_refl _ _
    · rw [if_neg h2]
      dsimp only
      split
      · refine extWith_trans ?_
          (extWith_mono (gaEvent_def_congr idx card _ rfl rfl) (sa_ext env cfg idx _ _))
        exact extWith_cons_eq rfl trivial
      · split
        · refine extWith_trans ?_
            (extWith_mono (gaEvent_def_congr idx card _ rfl rfl) (sa_ext env cfg idx _ _))
          split_ifs with hcc
          · refine extWith_trans ?_
              (extWith_mono (fun e he => by obtain ⟨a, b, rfl⟩ := he; trivial)
                (cache_ext _ _ _ _ _))
            refine extWith_trans ?_ (extWith_cons_eq (tts_trace _ _ _ _ _ _) ⟨rfl, Or.inl rfl⟩)
            exact extWith_cons_eq rfl trivial
          · refine extWith_trans ?_ (extWith_cons_eq rfl trivial)
            refine extWith_trans ?_
              (extWith_mono (fun e he => by obtain ⟨a, b, rfl⟩ := he; trivial)
                (cache_ext _ _ _ _ _))
            refine extWith_trans ?_ (extWith_cons_eq (tts_trace _ _ _ _ _ _) ⟨rfl, Or.inl rfl⟩)
            exact extWith_cons_eq rfl trivial
        · split_ifs with h429
          · split
            · refine extWith_trans ?_
                (extWith_mono (gaEvent_def_congr idx card _ rfl rfl) (sa_ext env cfg idx _ _))
              refine extWith_trans ?_ (extWith_cons_eq rfl trivial)
              refine extWith_trans ?_
                (extWith_mono (fun e he => by obtain ⟨a, b, rfl⟩ := he; trivial)
                  (cache_ext _ _ _ _ _))
              refine extWith_trans ?_ (extWith_cons_eq (tts_trace _ _ _ _ _ _) ⟨rfl, Or.inl rfl⟩)
              refine extWith_trans ?_ (extWith_cons_eq rfl trivial)
              refine extWith_trans ?_ (extWith_cons_eq (tts_trace _ _ _ _ _ _) ⟨rfl, Or.inl rfl⟩)
              exact extWith_cons_eq rfl trivial
            · refine extWith_trans ?_ (extWith_cons_eq (tts_trace _ _ _ _ _ _) ⟨rfl, Or.inl rfl⟩)
              refine extWith_trans ?_ (extWith_cons_eq rfl trivial)
              refine extWith_trans ?_ (extWith_cons_eq (tts_trace _ _ _ _ _ _) ⟨rfl, Or.inl rfl⟩)
              exact extWith_cons_eq rfl trivial
            · refine extWith_trans ?_ (extWith_cons_eq (tts_trace _ _ _ _ _ _) ⟨rfl, Or.inl rfl⟩)
              refine extWith_trans ?_ (extWith_cons_eq rfl trivial)
              refine extWith_trans ?_ (extWith_cons_eq (tts_trace _ _ _ _ _ _) ⟨rfl, Or.inl rfl⟩)
              exact extWith_cons_eq rfl trivial
          · refine extWith_trans ?_ (extWith_cons_eq (tts_trace _ _ _ _ _ _) ⟨rfl, Or.inl rfl⟩)
            exact extWith_cons_eq rfl trivial
        · refine extWith_trans ?_ (extWith_cons_eq (tts_trace _ _ _ _ _ _) ⟨rfl, Or.inl rfl⟩)
          exact extWith_cons_eq rfl trivial

/-! ### Audio-loop lemmas -/

theorem gaEvent_audioEv (idx : Nat) (card : FlashcardData) :
    ∀ e, gaEvent idx card e → audioEv e := by
  intro e; cases e <;> simp [gaEvent, audioEv]

theorem audioLoop_snd (env : Env) (cfg : GeneratorConfig) (n : Nat) :
    ∀ (cards : List FlashcardData) (p : Nat) (s : GenState),
    ExtWith audioEv s.trace (audioLoop env cfg n cards p s).2.trace ∧
    (audioLoop env cfg n cards p s).2.cancelled = s.cancelled ∧
    (audioLoop env cfg n cards p s).2.noteCalls = s.noteCalls ∧
    (audioLoop env cfg n cards p s).2.geminiCalls = s.geminiCalls ∧
    (audioLoop env cfg n cards p s).2.checkpoint = s.checkpoint ∧
    (audioLoop env cfg n cards p s).2.checkpointFile = s.checkpointFile ∧
    (audioLoop env cfg n cards p s).2.stats.skipped_words = s.stats.skipped_words ∧
    (∀ f ∈ s.files, f ∈ (audioLoop env cfg n cards p s).2.files) := by
  intro cards
  induction cards with
  | nil => intro p s; exact ⟨extWith_refl _ _, by simp [audioLoop]⟩
  | cons card rest ih =>
      intro p s
      simp only [audioLoop]
      by_cases hcanc : s.cancelled = true
      · rw [if_pos hcanc]
        exact ⟨extWith_refl _ _, by simp⟩
      · rw [if_neg hcanc]
        by_cases herr : card.error.isSome = true
        · rw [if_pos herr]
          dsimp only
          exact ih (p + 1) s
        · rw [if_neg herr]
          dsimp only
          refine ⟨?_, ?_, ?_, ?_, ?_, ?_, ?_, ?_⟩
          · refine extWith_trans ?_ (ih (p + 1) _).1
            split_ifs with hsucc
            · refine extWith_trans ?_
                (extWith_mono (gaEvent_audioEv p card) (ga_ext env cfg p card _))
              exact extWith_cons_eq rfl trivial
            · refine extWith_trans ?_
                (extWith_mono (gaEvent_audioEv p card) (ga_ext env cfg p card _))
              exact extWith_cons_eq rfl trivial
          · exact ((ih (p + 1) _).2.1).trans (by split_ifs <;> simp [ga_cancelled])
          · exact ((ih (p + 1) _).2.2.1).trans (by split_ifs <;> simp [ga_noteCalls])
          · exact ((ih (p + 1) _).2.2.2.1).trans (by split_ifs <;> simp [ga_geminiCalls])
          · exact ((ih (p + 1) _).2.2.2.2.1).trans (by split_ifs <;> simp [ga_checkpoint])
          · exact ((ih (p + 1) _).2.2.2.2.2.1).trans (by split_ifs <;> simp [ga_cpFile])
          · exact ((ih (p + 1) _).2.2.2.2.2.2.1).trans (by split_ifs <;> simp [ga_stats])
          · intro f hf
            refine (ih (p + 1) _).2.2.2.2.2.2.2 f ?_
            split_ifs with hsucc
            · exact ga_files_sub env cfg p card _ f hf
            · simp only []
              exact ga_files_sub env cfg p card _ f hf

theorem audioLoop_get_errored (env : Env) (cfg : GeneratorConfig) (n : Nat) :
    ∀ (cards : List FlashcardData) (p : Nat) (s : GenState) (k : Nat) (c : FlashcardData),
    cards.get? k = some c → c.error.isSome = true →
    (audioLoop env cfg n cards p s).1.get? k = some c := by
  intro cards
  induction cards with
  | nil => intro p s k c h; simp at h
  | cons card rest ih =>
      intro p s k c h herr
      simp only [audioLoop]
      by_cases hcanc : s.cancelled = true
      · rw [if_pos hcanc]; exact h
      · rw [if_neg hcanc]
        by_cases he : card.error.isSome = true
        · rw [if_pos he]
          dsimp only
          cases k with
          | zero => simpa using h
          | succ k' => simpa using ih (p + 1) s k' c (by simpa using h) herr
        · rw [if_neg he]
          dsimp only
          cases k with
          | zero =>
              exfalso
              simp only [List.get?_cons_zero, Option.some.injEq] at h
              rw [h] at he
              exact he herr
          | succ k' => simpa using ih (p + 1) _ k' c (by simpa using h) herr

theorem ite_trace_eq (c : Prop) [Decidable c] (x : GenState) (st' : ProcessingStats) :
    (if c then x else { x with stats := st' }).trace = x.trace := by
  split_ifs <;> rfl

theorem audioLoop_tts_chr (env : Env) (cfg : GeneratorConfig) (n : Nat) :
    ∀ (cards : List FlashcardData) (p : Nat) (s : GenState) (i : Nat) (t f : String),
    Event.ttsCall i t f ∈ (audioLoop env cfg n cards p s).2.trace →
    Event.ttsCall i t f ∈ s.trace ∨
      (p ≤ i ∧ ∃ c, cards.get? (i - p) = some c ∧ c.error = none) := by
  intro cards
  induction cards with
  | nil => intro p s i t f h; simp [audioLoop] at h; exact Or.inl h
  | cons card rest ih =>
      intro p s i t f h
      simp only [audioLoop] at h
      by_cases hcanc : s.cancelled = true
      · rw [if_pos hcanc] at h; exact Or.inl h
      · rw [if_neg hcanc] at h
        by_cases he : card.error.isSome = true
        · rw [if_pos he] at h
          dsimp only at h
          rcases ih (p + 1) s i t f h with hm | ⟨hle, c, hg, hcerr⟩
          · exact Or.inl hm
          · refine Or.inr ⟨Nat.le_trans (Nat.le_succ _) hle, c, ?_, hcerr⟩
            have hip : i - p = (i - (p + 1)) + 1 := by omega
            rw [hip]
            simpa using hg
        · rw [if_neg he] at h
          dsimp only at h
          rcases ih (p + 1) _ i t f h with hm | ⟨hle, c, hg, hcerr⟩
          · rw [ite_trace_eq] at hm
            rcases extWith_mem_elim (ga_ext env cfg p card _) hm with hm3 | hga
            · rcases List.mem_cons.mp hm3 with h4 | h4
              · simp at h4
              · exact Or.inl h4
            · obtain ⟨rfl, -⟩ := hga
              exact Or.inr ⟨Nat.le_refl _, card, by simp, by simpa using he⟩
          · refine Or.inr ⟨Nat.le_trans (Nat.le_succ _) hle, c, ?_, hcerr⟩
            have hip : i - p = (i - (p + 1)) + 1 := by omega
            rw [hip]
            simpa using hg

theorem audioLoop_audioCall_chr (env : Env) (cfg : GeneratorConfig) (n : Nat) :
    ∀ (cards : List FlashcardData) (p : Nat) (s : GenState) (i : Nat) (w : String)
      (est : Option ℚ),
    Event.audioCall i w est ∈ (audioLoop env cfg n cards p s).2.trace →
    Event.audioCall i w est ∈ s.trace ∨
      est = some ((((n - (i + 1)) * 2 : Nat) : ℚ) * cfg.tts_delay) := by
  intro cards
  induction cards with
  | nil => intro p s i w est h; simp [audioLoop] at h; exact Or.inl h
  | cons card rest ih =>
      intro p s i w est h
      simp only [audioLoop] at h
      by_cases hcanc : s.cancelled = true
      · rw [if_pos hcanc] at h; exact Or.inl h
      · rw [if_neg hcanc] at h
        by_cases he : card.error.isSome = true
        · rw [if_pos he] at h
          dsimp only at h
          exact ih (p + 1) s i w est h
        · rw [if_neg he] at h
          dsimp only at h
          rcases ih (p + 1) _ i w est h with hm | hval
          · rw [ite_trace_eq] at hm
            rcases extWith_mem_elim (ga_ext env cfg p card _) hm with hm3 | hga
            · rcases List.mem_cons.mp hm3 with h4 | h4
              · injection h4 with hi hw hest
                subst hi
                exact Or.inr hest
              · exact Or.inl h4
            · simp [gaEvent] at hga
          · exact Or.inr hval

/-! ### Publish-stage (staging) lemmas -/

theorem copy_one_snd (cfg : GeneratorConfig) (idx : Nat) (mediaDir : String)
    (fileOpt : Option String) (s : GenState) :
    ExtWith (fun e => ∃ a b, e = Event.publishCopy idx a b) s.trace
      (copy_one_audio cfg idx mediaDir fileOpt s).trace ∧
    (copy_one_audio cfg idx mediaDir fileOpt s).cancelled = s.cancelled ∧
    (copy_one_audio cfg idx mediaDir fileOpt s).ttsCalls = s.ttsCalls ∧
    (copy_one_audio cfg idx mediaDir fileOpt s).noteCalls = s.noteCalls ∧
    (copy_one_audio cfg idx mediaDir fileOpt s).geminiCalls = s.geminiCalls ∧
    (copy_one_audio cfg idx mediaDir fileOpt s).checkpoint = s.checkpoint ∧
    (copy_one_audio cfg idx mediaDir fileOpt s).checkpointFile = s.checkpointFile ∧
    (copy_one_audio cfg idx mediaDir fileOpt s).stats = s.stats ∧
    (copy_one_audio cfg idx mediaDir fileOpt s).cacheMetadata = s.cacheMetadata ∧
    (∀ f ∈ s.files, f ∈ (copy_one_audio cfg idx mediaDir fileOpt s).files) := by
  cases fileOpt with
  | none => exact ⟨extWith_refl _ _, by simp [copy_one_audio]⟩
  | some f =>
      unfold copy_one_audio
      dsimp only
      split_ifs <;>
        first
        | exact ⟨extWith_refl _ _, by simp⟩
        | exact ⟨extWith_cons ⟨_, _, rfl⟩, by simp; exact fun g hg => Or.inr hg⟩

theorem copy_loop_snd (env : Env) (cfg : GeneratorConfig) (mediaDir : String) :
    ∀ (cards : List FlashcardData) (p : Nat) (s : GenState),
    ExtWith (fun e => ∃ i a b, e = Event.publishCopy i a b) s.trace
      (copy_audio_loop cfg mediaDir cards p s).trace ∧
    (copy_audio_loop cfg mediaDir cards p s).cancelled = s.cancelled ∧
    (copy_audio_loop cfg mediaDir cards p s).ttsCalls = s.ttsCalls ∧
    (copy_audio_loop cfg mediaDir cards p s).noteCalls = s.noteCalls ∧
    (copy_audio_loop cfg mediaDir cards p s).geminiCalls = s.geminiCalls ∧
    (copy_audio_loop cfg mediaDir cards p s).checkpoint = s.checkpoint ∧
    (copy_audio_loop cfg mediaDir cards p s).checkpointFile = s.checkpointFile ∧
    (copy_audio_loop cfg mediaDir cards p s).stats = s.stats ∧
    (copy_audio_loop cfg mediaDir cards p s).cacheMetadata = s.cacheMetadata ∧
    (∀ f ∈ s.files, f ∈ (copy_audio_loop cfg mediaDir cards p s).files) := by
  intro cards
  induction cards with
  | nil => intro p s; exact ⟨extWith_refl _ _, by simp [copy_audio_loop]⟩
  | cons card rest ih =>
      intro p s
      simp only [copy_audio_loop]
      split_ifs with hskip
      · exact ih (p + 1) s
      · obtain ⟨e1, c1, t1, n1, g1, k1, kf1, st1, m1, f1⟩ :=
          copy_one_snd cfg p mediaDir card.audio_word_file s
        obtain ⟨e2, c2, t2, n2, g2, k2, kf2, st2, m2, f2⟩ :=
          copy_one_snd cfg p mediaDir card.audio_sentence_file
            (copy_one_audio cfg p mediaDir card.audio_word_file s)
        obtain ⟨e3, c3, t3, n3, g3, k3, kf3, st3, m3, f3⟩ := ih (p + 1)
          (copy_one_audio cfg p mediaDir card.audio_sentence_file
            (copy_one_audio cfg p mediaDir card.audio_word_file s))
        refine ⟨?_, c3.trans (c2.trans c1), t3.trans (t2.trans t1), n3.trans (n2.trans n1),
          g3.trans (g2.trans g1), k3.trans (k2.trans k1), kf3.trans (kf2.trans kf1),
          st3.trans (st2.trans st1), m3.trans (m2.trans m1),
          fun f hf => f3 f (f2 f (f1 f hf))⟩
        exact extWith_trans
          (extWith_mono (fun e ⟨a, b, he⟩ => ⟨p, a, b, he⟩) e1)
          (extWith_trans (extWith_mono (fun e ⟨a, b, he⟩ => ⟨p, a, b, he⟩) e2) e3)
  
theorem copy_loop_pub_chr (env : Env) (cfg : GeneratorConfig) (mediaDir : String) :
    ∀ (cards : List FlashcardData) (p : Nat) (s : GenState) (i : Nat) (a b : String),
    Event.publishCopy i a b ∈ (copy_audio_loop cfg mediaDir cards p s).trace →
    Event.publishCopy i a b ∈ s.trace ∨
      (p ≤ i ∧ ∃ c, cards.get? (i - p) = some c ∧ c.error = none) := by
  intro cards
  induction cards with
  | nil => intro p s i a b h; simp [copy_audio_loop] at h; exact Or.inl h
  | cons card rest ih =>
      intro p s i a b h
      simp only [copy_audio_loop] at h
      split_ifs at h with hskip
      · rcases ih (p + 1) s i a b h with hm | ⟨hle, c, hg, hcerr⟩
        · exact Or.inl hm
        · refine Or.inr ⟨Nat.le_trans (Nat.le_succ _) hle, c, ?_, hcerr⟩
          have hip : i - p = (i - (p + 1)) + 1 := by omega
          rw [hip]
          simpa using hg
      · have herr : card.error = none := by
          rcases hc : card.error with _ | v
          · rfl
          · exfalso; apply hskip; simp [hc]
        rcases ih (p + 1) _ i a b h with hm | ⟨hle, c, hg, hcerr⟩
        · rcases extWith_mem_elim
            (copy_one_snd cfg p mediaDir card.audio_sentence_file _).1 hm with hm2 | hev
          · rcases extWith_mem_elim
              (copy_one_snd cfg p mediaDir card.audio_word_file _).1 hm2 with hm3 | hev
            · exact Or.inl hm3
            · obtain ⟨a', b', heq⟩ := hev
              injection heq with hi _ _
              subst hi
              exact Or.inr ⟨Nat.le_refl _, card, by simp, herr⟩
          · obtain ⟨a', b', heq⟩ := hev
            injection heq with hi _ _
            subst hi
            exact Or.inr ⟨Nat.le_refl _, card, by simp, herr⟩
        · refine Or.inr ⟨Nat.le_trans (Nat.le_succ _) hle, c, ?_, hcerr⟩
          have hip : i - p = (i - (p + 1)) + 1 := by omega
          rw [hip]
          simpa using hg

theorem copy_anki_fst (env : Env) (cfg : GeneratorConfig) (cards : List FlashcardData)
    (s : GenState) :
    (copy_audio_to_anki env cfg cards s).1 = pathExists env.ankiMediaDir s := by
  unfold copy_audio_to_anki
  dsimp only
  split_ifs with h
  · rw [show pathExists env.ankiMediaDir s = true from h]
  · rw [show pathExists env.ankiMediaDir s = false by simpa using h]

/-! ### Publish-stage (note submission) lemmas -/

theorem add_note_snd (env : Env) (idx : Nat) (modelName : String) (isReverse : Bool)
    (s : GenState) :
    (add_note_call env idx modelName isReverse s).2.trace =
      Event.noteAdd idx modelName isReverse (env.addNote s.noteCalls).isNone :: s.trace ∧
    (add_note_call env idx modelName isReverse s).2.cancelled = s.cancelled ∧
    (add_note_call env idx modelName isReverse s).2.ttsCalls = s.ttsCalls ∧
    (add_note_call env idx modelName isReverse s).2.geminiCalls = s.geminiCalls ∧
    (add_note_call env idx modelName isReverse s).2.checkpoint = s.checkpoint ∧
    (add_note_call env idx modelName isReverse s).2.checkpointFile = s.checkpointFile ∧
    (add_note_call env idx modelName isReverse s).2.stats = s.stats ∧
    (add_note_call env idx modelName isReverse s).2.cacheMetadata = s.cacheMetadata ∧
    (add_note_call env idx modelName isReverse s).2.files = s.files := by
  simp [add_note_call]

theorem add_note_fst (env : Env) (idx : Nat) (modelName : String) (isReverse : Bool)
    (s : GenState) :
    (add_note_call env idx modelName isReverse s).1 = env.addNote s.noteCalls := rfl

theorem send_loop_snd (env : Env) (cfg : GeneratorConfig) :
    ∀ (cards : List FlashcardData) (p : Nat) (s : GenState),
    ExtWith (fun e => ∃ i m r o, e = Event.noteAdd i m r o) s.trace
      (send_loop env cfg cards p s).2.trace ∧
    (send_loop env cfg cards p s).2.cancelled = s.cancelled ∧
    (send_loop env cfg cards p s).2.ttsCalls = s.ttsCalls ∧
    (send_loop env cfg cards p s).2.geminiCalls = s.geminiCalls ∧
    (send_loop env cfg cards p s).2.checkpoint = s.checkpoint ∧
    (send_loop env cfg cards p s).2.checkpointFile = s.checkpointFile ∧
    (send_loop env cfg cards p s).2.stats = s.stats ∧
    (send_loop env cfg cards p s).2.cacheMetadata = s.cacheMetadata ∧
    (send_loop env cfg cards p s).2.files = s.files := by
  intro cards
  induction cards with
  | nil => intro p s; exact ⟨extWith_refl _ _, by simp [send_loop]⟩
  | cons card rest ih =>
      intro p s
      simp only [send_loop]
      by_cases hskip : (card.error.isSome || s.cancelled) = true
      · rw [if_pos hskip]
        exact ih (p + 1) s
      · rw [if_neg hskip]
        try dsimp only
        rw [add_note_fst]
        cases hr : env.addNote s.noteCalls with
        | some e =>
            try dsimp only
            obtain ⟨e3, c3, t3, g3, k3, kf3, st3, m3, f3⟩ := ih (p + 1) _
            refine ⟨?_, ?_⟩
            · refine extWith_trans ?_ e3
              exact extWith_cons_eq (add_note_snd env p cfg.model_name false s).1
                ⟨p, _, _, _, rfl⟩
            · simp_all [add_note_call]
        | none =>
            try dsimp only
            split_ifs with hrev
            · obtain ⟨e3, c3, t3, g3, k3, kf3, st3, m3, f3⟩ := ih (p + 1) _
              refine ⟨?_, ?_⟩
              · refine extWith_trans ?_ e3
                exact extWith_trans
                  (extWith_cons_eq (add_note_snd env p cfg.model_name false s).1
                    ⟨p, _, _, _, rfl⟩)
                  (extWith_cons_eq (add_note_snd env p cfg.reverse_model_name true _).1
                    ⟨p, _, _, _, rfl⟩)
              · simp_all [add_note_call]
            · obtain ⟨e3, c3, t3, g3, k3, kf3, st3, m3, f3⟩ := ih (p + 1) _
              refine ⟨?_, ?_⟩
              · refine extWith_trans ?_ e3
                exact extWith_cons_eq (add_note_snd env p cfg.model_name false s).1
                  ⟨p, _, _, _, rfl⟩
              · simp_all [add_note_call]

theorem send_loop_note_chr (env : Env) (cfg : GeneratorConfig) :
    ∀ (cards : List FlashcardData) (p : Nat) (s : GenState) (i : Nat) (m : String)
      (r o : Bool),
    Event.noteAdd i m r o ∈ (send_loop env cfg cards p s).2.trace →
    Event.noteAdd i m r o ∈ s.trace ∨
      (p ≤ i ∧ ∃ c, cards.get? (i - p) = some c ∧ c.error = none) := by
  intro cards
  induction cards with
  | nil => intro p s i m r o h; simp [send_loop] at h; exact Or.inl h
  | cons card rest ih =>
      intro p s i m r o h
      simp only [send_loop] at h
      by_cases hskip : (card.error.isSome || s.cancelled) = true
      · rw [if_pos hskip] at h
        rcases ih (p + 1) s i m r o h with hm | ⟨hle, c, hg, hcerr⟩
        · exact Or.inl hm
        · refine Or.inr ⟨Nat.le_trans (Nat.le_succ _) hle, c, ?_, hcerr⟩
          have hip : i - p = (i - (p + 1)) + 1 := by omega
          rw [hip]
          simpa using hg
      · rw [if_neg hskip] at h
        have herr : card.error = none := by
          rcases hc : card.error with _ | v
          · rfl
          · exfalso; apply hskip; simp [hc]
        try dsimp only at h
        rw [add_note_fst] at h
        have lift : ∀ (s' : GenState),
            Event.noteAdd i m r o ∈ (send_loop env cfg rest (p + 1) s').2.trace →
            Event.noteAdd i m r o ∈ s'.trace ∨
              (p ≤ i ∧ ∃ c, (card :: rest).get? (i - p) = some c ∧ c.error = none) := by
          intro s' h'
          rcases ih (p + 1) s' i m r o h' with hm | ⟨hle, c, hg, hcerr⟩
          · exact Or.inl hm
          · refine Or.inr ⟨Nat.le_trans (Nat.le_succ _) hle, c, ?_, hcerr⟩
            have hip : i - p = (i - (p + 1)) + 1 := by omega
            rw [hip]
            simpa using hg
        cases hr : env.addNote s.noteCalls with
        | some e =>
            rw [hr] at h
            dsimp only at h
            rcases lift _ h with hm | hgood
            · simp only [add_note_call] at hm
              rcases List.mem_cons.mp hm with h4 | h4
              · injection h4 with hi _ _ _
                subst hi
                exact Or.inr ⟨Nat.le_refl _, card, by simp, herr⟩
              · exact Or.inl h4
            · exact Or.inr hgood
        | none =>
            rw [hr] at h
            dsimp only at h
            split_ifs at h with hrev
            · rcases lift _ h with hm | hgood
              · simp only [add_note_call] at hm
                rcases List.mem_cons.mp hm with h4 | h4
                · injection h4 with hi _ _ _
                  subst hi
                  exact Or.inr ⟨Nat.le_refl _, card, by simp, herr⟩
                · rcases List.mem_cons.mp h4 with h5 | h5
                  · injection h5 with hi _ _ _
                    subst hi
                    exact Or.inr ⟨Nat.le_refl _, card, by simp, herr⟩
                  · exact Or.inl h5
              · exact Or.inr hgood
            · rcases lift _ h with hm | hgood
              · simp only [add_note_call] at hm
                rcases List.mem_cons.mp hm with h4 | h4
                · injection h4 with hi _ _ _
                  subst hi
                  exact Or.inr ⟨Nat.le_refl _, card, by simp, herr⟩
                · exact Or.inl h4
              · exact Or.inr hgood

theorem send_loop_get_errored (env : Env) (cfg : GeneratorConfig) :
    ∀ (cards : List FlashcardData) (p : Nat) (s : GenState) (k : Nat) (c : FlashcardData),
    cards.get? k = some c → c.error.isSome = true →
    (send_loop env cfg cards p s).1.get? k = some c := by
  intro cards
  induction cards with
  | nil => intro p s k c h; simp at h
  | cons card rest ih =>
      intro p s k c h herr
      simp only [send_loop]
      by_cases hskip : (card.error.isSome || s.cancelled) = true
      · rw [if_pos hskip]
        cases k with
        | zero => simpa using h
        | succ k' =>
            dsimp only
            simpa using ih (p + 1) s k' c (by simpa using h) herr
      · rw [if_neg hskip]
        try dsimp only
        rw [add_note_fst]
        cases k with
        | zero =>
            exfalso
            simp only [List.get?_cons_zero, Option.some.injEq] at h
            exact hskip (by simp [h, herr])
        | succ k' =>
            cases hr : env.addNote s.noteCalls with
            | some e =>
                try dsimp only
                simpa using ih (p + 1) _ k' c (by simpa using h) herr
            | none =>
                try dsimp only
                simpa using ih (p + 1) _ k' c (by simpa using h) herr

theorem not_note_cons {i : Nat} {t : List Event} (e : Event)
    (he : ∀ m r o, Event.noteAdd i m r o ≠ e)
    (h : ∀ m r o, Event.noteAdd i m r o ∉ t) :
    ∀ m r o, Event.noteAdd i m r o ∉ (e :: t) := by
  intro m r o hm
  rcases List.mem_cons.mp hm with h4 | h4
  · exact he m r o h4
  · exact h m r o h4

theorem send_loop_c8 (env : Env) (cfg : GeneratorConfig) :
    ∀ (cards : List FlashcardData) (p : Nat) (s : GenState) (k : Nat) (c : FlashcardData),
    cards.get? k = some c → c.error = none → s.cancelled = false →
    (∀ m r o, Event.noteAdd (p + k) m r o ∉ s.trace) →
    ((Event.noteAdd (p + k) cfg.model_name false false ∈ (send_loop env cfg cards p s).2.trace →
        (∃ msg, (send_loop env cfg cards p s).1.get? k = some { c with error := some msg }) ∧
        (∀ m o, Event.noteAdd (p + k) m true o ∉ (send_loop env cfg cards p s).2.trace)) ∧
      (Event.noteAdd (p + k) cfg.model_name false true ∈ (send_loop env cfg cards p s).2.trace →
        (send_loop env cfg cards p s).1.get? k = some c)) := by
  intro cards
  induction cards with
  | nil => intro p s k c h _ _ _; simp at h
  | cons card rest ih =>
      intro p s k c hget herr hcanc hnot
      cases k with
      | zero =>
          simp only [Nat.add_zero] at hnot ⊢
          simp only [List.get?_cons_zero, Option.some.injEq] at hget
          subst hget
          simp only [send_loop]
          rw [if_neg (by simp [herr, hcanc])]
          try dsimp only
          rw [add_note_fst]
          cases hr : env.addNote s.noteCalls with
          | some e =>
              try dsimp only
              constructor
              · intro _
                refine ⟨⟨e, by simp⟩, ?_⟩
                intro m o hmm
                rcases send_loop_note_chr env cfg rest (p + 1) _ p m true o hmm with
                  hold | ⟨hle, _⟩
                · rw [(add_note_snd env p cfg.model_name false s).1] at hold
                  rcases List.mem_cons.mp hold with h4 | h4
                  · simp at h4
                  · exact hnot m true o h4
                · omega
              · intro hmem
                exfalso
                rcases send_loop_note_chr env cfg rest (p + 1) _ p _ _ _ hmem with
                  hold | ⟨hle, _⟩
                · rw [(add_note_snd env p cfg.model_name false s).1] at hold
                  rcases List.mem_cons.mp hold with h4 | h4
                  · simp [hr] at h4
                  · exact hnot cfg.model_name false true h4
                · omega
          | none =>
              try dsimp only
              split_ifs with hrev
              · constructor
                · intro hmem
                  exfalso
                  rcases send_loop_note_chr env cfg rest (p + 1) _ p _ _ _ hmem with
                    hold | ⟨hle, _⟩
                  · rw [(add_note_snd env p cfg.reverse_model_name true _).1,
                      (add_note_snd env p cfg.model_name false s).1] at hold
                    rcases List.mem_cons.mp hold with h4 | h4
                    · simp at h4
                    · rcases List.mem_cons.mp h4 with h5 | h5
                      · simp [hr] at h5
                      · exact hnot cfg.model_name false false h5
                  · omega
                · intro _
                  simp
              · constructor
                · intro hmem
                  exfalso
                  rcases send_loop_note_chr env cfg rest (p + 1) _ p _ _ _ hmem with
                    hold | ⟨hle, _⟩
                  · rw [(add_note_snd env p cfg.model_name false s).1] at hold
                    rcases List.mem_cons.mp hold with h4 | h4
                    · simp [hr] at h4
                    · exact hnot cfg.model_name false false h4
                  · omega
                · intro _
                  simp
      | succ k' =>
          have hpk : p + (k' + 1) = (p + 1) + k' := by omega
          rw [hpk] at hnot ⊢
          have hget' : rest.get? k' = some c := by simpa using hget
          simp only [send_loop]
          by_cases hskip : (card.error.isSome || s.cancelled) = true
          · rw [if_pos hskip]
            obtain ⟨ihA, ihB⟩ := ih (p + 1) s k' c hget' herr hcanc hnot
            constructor
            · intro hmem
              obtain ⟨⟨msg, hmsg⟩, hnorev⟩ := ihA hmem
              exact ⟨⟨msg, by simpa using hmsg⟩, hnorev⟩
            · intro hmem
              simpa using ihB hmem
          · rw [if_neg hskip]
            try dsimp only
            rw [add_note_fst]
            cases hr : env.addNote s.noteCalls with
            | some e =>
                try dsimp only
                have hcanc1 : (add_note_call env p cfg.model_name false s).2.cancelled = false :=
                  by simp [add_note_call, hcanc]
                have hnot1 : ∀ m r o, Event.noteAdd ((p + 1) + k') m r o ∉
                    (add_note_call env p cfg.model_name false s).2.trace := by
                  rw [(add_note_snd env p cfg.model_name false s).1]
                  exact not_note_cons _
                    (fun m r o heq => by injection heq with hi _ _ _; omega) hnot
                obtain ⟨ihA, ihB⟩ := ih (p + 1) _ k' c hget' herr hcanc1 hnot1
                constructor
                · intro hmem
                  obtain ⟨⟨msg, hmsg⟩, hnorev⟩ := ihA hmem
                  exact ⟨⟨msg, by simpa using hmsg⟩, hnorev⟩
                · intro hmem
                  simpa using ihB hmem
            | none =>
                try dsimp only
                split_ifs with hrev
                · have hcanc2 : (add_note_call env p cfg.reverse_model_name true
                      (add_note_call env p cfg.model_name false s).2).2.cancelled = false := by
                    simp [add_note_call, hcanc]
                  have hnot2 : ∀ m r o, Event.noteAdd ((p + 1) + k') m r o ∉
                      (add_note_call env p cfg.reverse_model_name true
                        (add_note_call env p cfg.model_name false s).2).2.trace := by
                    rw [(add_note_snd env p cfg.reverse_model_name true _).1,
                      (add_note_snd env p cfg.model_name false s).1]
                    refine not_note_cons _
                      (fun m r o heq => by injection heq with hi _ _ _; omega) ?_
                    exact not_note_cons _
                      (fun m r o heq => by injection heq with hi _ _ _; omega) hnot
                  obtain ⟨ihA, ihB⟩ := ih (p + 1) _ k' c hget' herr hcanc2 hnot2
                  constructor
                  · intro hmem
                    obtain ⟨⟨msg, hmsg⟩, hnorev⟩ := ihA hmem
                    exact ⟨⟨msg, by simpa using hmsg⟩, hnorev⟩
                  · intro hmem
                    simpa using ihB hmem
                · have hcanc1 : (add_note_call env p cfg.model_name false s).2.cancelled = false :=
                    by simp [add_note_call, hcanc]
                  have hnot1 : ∀ m r o, Event.noteAdd ((p + 1) + k') m r o ∉
                      (add_note_call env p cfg.model_name false s).2.trace := by
                    rw [(add_note_snd env p cfg.model_name false s).1]
                    exact not_note_cons _
                      (fun m r o heq => by injection heq with hi _ _ _; omega) hnot
                  obtain ⟨ihA, ihB⟩ := ih (p + 1) _ k' c hget' herr hcanc1 hnot1
                  constructor
                  · intro hmem
                    obtain ⟨⟨msg, hmsg⟩, hnorev⟩ := ihA hmem
                    exact ⟨⟨msg, by simpa using hmsg⟩, hnorev⟩
                  · intro hmem
                    simpa using ihB hmem

/-! ### Run-level composition lemmas -/

theorem runContent_snd (env : Env) (ca : Option Nat) (s0 : GenState) :
    ExtWith contentEv s0.trace (runContent env ca s0).2.trace ∧
    (runContent env ca s0).2.ttsCalls = s0.ttsCalls ∧
    (runContent env ca s0).2.noteCalls = s0.noteCalls ∧
    (runContent env ca s0).2.files = s0.files ∧
    (runContent env ca s0).2.cacheMetadata = s0.cacheMetadata ∧
    (runContent env ca s0).2.stats.skipped_words = s0.stats.skipped_words := by
  unfold runContent
  dsimp only
  refine ⟨?_, (contentLoop_snd env ca (runWords env) 0 _).2.1,
    (contentLoop_snd env ca (runWords env) 0 _).2.2.1,
    (contentLoop_snd env ca (runWords env) 0 _).2.2.2.1,
    (contentLoop_snd env ca (runWords env) 0 _).2.2.2.2.1,
    (contentLoop_snd env ca (runWords env) 0 _).2.2.2.2.2⟩
  exact extWith_trans (extWith_cons_eq rfl (Or.inr ⟨_, rfl⟩))
    (contentLoop_snd env ca (runWords env) 0 _).1

theorem copy_anki_snd (env : Env) (cfg : GeneratorConfig) (cards : List FlashcardData)
    (s : GenState) :
    ExtWith (fun e => (∃ i a b, e = Event.publishCopy i a b) ∨ (∃ st, e = Event.stateEv st))
      s.trace (copy_audio_to_anki env cfg cards s).2.trace ∧
    (copy_audio_to_anki env cfg cards s).2.cancelled = s.cancelled ∧
    (copy_audio_to_anki env cfg cards s).2.ttsCalls = s.ttsCalls ∧
    (copy_audio_to_anki env cfg cards s).2.noteCalls = s.noteCalls ∧
    (copy_audio_to_anki env cfg cards s).2.geminiCalls = s.geminiCalls ∧
    (copy_audio_to_anki env cfg cards s).2.checkpoint = s.checkpoint ∧
    (copy_audio_to_anki env cfg cards s).2.checkpointFile = s.checkpointFile ∧
    (copy_audio_to_anki env cfg cards s).2.stats = s.stats ∧
    (copy_audio_to_anki env cfg cards s).2.cacheMetadata = s.cacheMetadata ∧
    (∀ f ∈ s.files, f ∈ (copy_audio_to_anki env cfg cards s).2.files) := by
  unfold copy_audio_to_anki
  dsimp only
  split_ifs with hmd
  · obtain ⟨he, hc, ht, hn, hg, hk, hkf, hst, hmm, hff⟩ :=
      copy_loop_snd env cfg env.ankiMediaDir cards 0 (update_state ProcessingState.copying_audio s)
    refine ⟨?_, by simp_all [update_state]⟩
    exact extWith_trans (extWith_cons_eq rfl (Or.inr ⟨_, rfl⟩))
      (extWith_mono (fun e ⟨i, a, b, hh⟩ => Or.inl ⟨i, a, b, hh⟩) he)
  · exact ⟨extWith_cons_eq rfl (Or.inr ⟨_, rfl⟩), by simp [update_state]⟩

theorem send_anki_snd (env : Env) (cfg : GeneratorConfig) (cards : List FlashcardData)
    (s : GenState) :
    ExtWith (fun e => (∃ i m r o, e = Event.noteAdd i m r o) ∨ (∃ st, e = Event.stateEv st))
      s.trace (send_to_anki env cfg cards s).2.trace ∧
    (send_to_anki env cfg cards s).2.cancelled = s.cancelled ∧
    (send_to_anki env cfg cards s).2.ttsCalls = s.ttsCalls ∧
    (send_to_anki env cfg cards s).2.geminiCalls = s.geminiCalls ∧
    (send_to_anki env cfg cards s).2.checkpoint = s.checkpoint ∧
    (send_to_anki env cfg cards s).2.checkpointFile = s.checkpointFile ∧
    (send_to_anki env cfg cards s).2.stats = s.stats ∧
    (send_to_anki env cfg cards s).2.cacheMetadata = s.cacheMetadata ∧
    (send_to_anki env cfg cards s).2.files = s.files := by
  unfold send_to_anki
  obtain ⟨he, hc, ht, hg, hk, hkf, hst, hmm, hff⟩ :=
    send_loop_snd env cfg cards 0 (update_state ProcessingState.sending_to_anki s)
  refine ⟨?_, by simp_all [update_state]⟩
  exact extWith_trans (extWith_cons_eq rfl (Or.inr ⟨_, rfl⟩))
    (extWith_mono (fun e ⟨i, m, r, o, hh⟩ => Or.inl ⟨i, m, r, o, hh⟩) he)

theorem run_skipped (env : Env) (cfg : GeneratorConfig) (cancelAt : Option Nat)
    (s0 : GenState) :
    (run env cfg cancelAt s0).2.stats.skipped_words = s0.stats.skipped_words := by
  unfold run
  by_cases hw : env.wordsFileExists = false
  · rw [if_pos hw]; simp [update_state]
  · rw [if_neg hw]
    by_cases hempty : (runWords env).isEmpty = true
    · rw [if_pos hempty]; simp [update_state]
    · rw [if_neg hempty]
      dsimp only
      obtain ⟨-, -, -, -, -, hsk1⟩ := runContent_snd env cancelAt s0
      by_cases hcanc : (runContent env cancelAt s0).2.cancelled = true
      · rw [if_pos hcanc]
        exact hsk1
      · rw [if_neg hcanc]
        by_cases htm : cfg.test_mode = true
        · rw [if_pos htm]
          try dsimp only
          rw [if_neg hcanc]
          by_cases hcp : (copy_audio_to_anki env cfg (runContent env cancelAt s0).1
              (runContent env cancelAt s0).2).1 = true
          · rw [if_pos hcp]
            obtain ⟨-, -, -, -, -, -, -, hst2, -, -⟩ :=
              copy_anki_snd env cfg (runContent env cancelAt s0).1 (runContent env cancelAt s0).2
            obtain ⟨-, -, -, -, -, -, hst3, -, -⟩ :=
              send_anki_snd env cfg (runContent env cancelAt s0).1
                (copy_audio_to_anki env cfg (runContent env cancelAt s0).1
                  (runContent env cancelAt s0).2).2
            simp only [update_state]
            rw [hst3, hst2]
            exact hsk1
          · rw [if_neg hcp]
            obtain ⟨-, -, -, -, -, -, -, hst2, -, -⟩ :=
              copy_anki_snd env cfg (runContent env cancelAt s0).1 (runContent env cancelAt s0).2
            simp only [update_state]
            rw [hst2]
            exact hsk1
        · rw [if_neg htm]
          try dsimp only
          obtain ⟨-, hac, -, -, -, -, hask, -⟩ :=
            audioLoop_snd env cfg (runContent env cancelAt s0).1.length
              (runContent env cancelAt s0).1 0 (runContent env cancelAt s0).2
          by_cases hcanc2 : (audioLoop env cfg (runContent env cancelAt s0).1.length
              (runContent env cancelAt s0).1 0 (runContent env cancelAt s0).2).2.cancelled = true
          · rw [if_pos hcanc2]
            rw [hask]
            exact hsk1
          · rw [if_neg hcanc2]
            by_cases hcp : (copy_audio_to_anki env cfg
                (audioLoop env cfg (runContent env cancelAt s0).1.length
                  (runContent env cancelAt s0).1 0 (runContent env cancelAt s0).2).1
                (audioLoop env cfg (runContent env cancelAt s0).1.length
                  (runContent env cancelAt s0).1 0 (runContent env cancelAt s0).2).2).1 = true
            · rw [if_pos hcp]
              obtain ⟨-, -, -, -, -, -, -, hst2, -, -⟩ := copy_anki_snd env cfg _ _
              obtain ⟨-, -, -, -, -, -, hst3, -, -⟩ := send_anki_snd env cfg _ _
              simp only [update_state]
              rw [hst3, hst2, hask]
              exact hsk1
            · rw [if_neg hcp]
              obtain ⟨-, -, -, -, -, -, -, hst2, -, -⟩ := copy_anki_snd env cfg _ _
              simp only [update_state]
              rw [hst2, hask]
              exact hsk1

/-! ### Claim theorems -/

/-- C10: `ProcessingStats.skipped_words` starts at 0, the checkpoint-skip path
of the content stage leaves it untouched, and no operation of a full `run`
ever modifies it, so it is 0 after every run. -/
theorem C10_skipped_words_always_zero (env : Env) (cfg : GeneratorConfig)
    (cancelAt : Option Nat) (word : String) (j : Nat) (s : GenState)
    (cp : List (String × FlashcardData)) (cm : List (String × String))
    (fl : List String) (cpf : Option (List (String × FlashcardData))) :
    (initS cp cm fl cpf).stats.skipped_words = 0 ∧
    (contentStep env word j s).2.stats.skipped_words = s.stats.skipped_words ∧
    (run env cfg cancelAt (initS cp cm fl cpf)).2.stats.skipped_words = 0 :=
  ⟨rfl, (contentStep_snd env word j s).2.2.2.2.2.2,
    (run_skipped env cfg cancelAt _).trans rfl⟩

/-- C3: a word already in the checkpoint store is returned unchanged by the
content stage without any backend call, and the surrounding run-loop step
leaves the checkpoint mapping, the failure count, the backend call count and
the trace unchanged. -/
theorem C3_checkpointed_word_skipped (env : Env) (word : String) (j : Nat) (s : GenState)
    (c : FlashcardData) (hcp : dictLookup word s.checkpoint = some c)
    (herr : c.error = none) :
    generate_content_for_word env word s = (some c, s) ∧
    (contentStep env word j s).1 = some c ∧
    (contentStep env word j s).2.checkpoint = s.checkpoint ∧
    (contentStep env word j s).2.stats.failed_words = s.stats.failed_words ∧
    (contentStep env word j s).2.geminiCalls = s.geminiCalls ∧
    (contentStep env word j s).2.trace = s.trace := by
  have hgen : generate_content_for_word env word s = (some c, s) := by
    unfold generate_content_for_word
    rw [hcp]
  refine ⟨hgen, ?_⟩
  unfold contentStep
  rw [hgen]
  dsimp only
  rw [if_pos herr]
  simp [save_checkpoint, dictInsert_of_lookup_eq word c s.checkpoint hcp]

/-- Witness for C3 at a concrete checkpointed word. -/
theorem C3_checkpointed_word_skipped_witness :
    dictLookup "hund" (initS [("hund", wCard)] [] [] none).checkpoint = some wCard ∧
    wCard.error = none ∧
    (contentStep wEnv "hund" 0 (initS [("hund", wCard)] [] [] none)).2.checkpoint =
      (initS [("hund", wCard)] [] [] none).checkpoint ∧
    (contentStep wEnv "hund" 0 (initS [("hund", wCard)] [] [] none)).2.geminiCalls =
      (initS [("hund", wCard)] [] [] none).geminiCalls :=
  ⟨by decide, rfl,
    (C3_checkpointed_word_skipped wEnv "hund" 0 (initS [("hund", wCard)] [] [] none) wCard
      (by decide) rfl).2.2.1,
    (C3_checkpointed_word_skipped wEnv "hund" 0 (initS [("hund", wCard)] [] [] none) wCard
      (by decide) rfl).2.2.2.2.1⟩

/-- C7: a cache metadata entry whose artifact no longer exists on disk is a
cache miss, and the next word-audio request for that text issues a fresh
synthesis call rather than failing. -/
theorem C7_stale_cache_entry_is_miss (env : Env) (cfg : GeneratorConfig) (idx : Nat)
    (card : FlashcardData) (s : GenState) (f : String)
    (hmeta : dictLookup (get_audio_cache_key env card.word) s.cacheMetadata = some f)
    (hmiss : pathExists (joinPath cfg.audio_cache_dir f) s = false)
    (herr : card.error = none) (hcanc : s.cancelled = false) :
    get_cached_audio env cfg s card.word = none ∧
    Event.ttsCall idx card.word (normalize_filename card.word) ∈
      (generate_audio_for_flashcard env cfg idx card s).2.2.trace := by
  have hnone : get_cached_audio env cfg s card.word = none := by
    unfold get_cached_audio
    rw [hmeta]
    simp [hmiss]
  refine ⟨hnone, ?_⟩
  unfold generate_audio_for_flashcard
  rw [if_neg (by simp [hcanc]), if_neg (by simp [herr])]
  dsimp only
  rw [hnone]
  dsimp only
  have hbase : Event.ttsCall idx card.word (normalize_filename card.word) ∈
      (tts_generate env cfg idx card.word (normalize_filename card.word)
        (update_state ProcessingState.generating_audio s)).2.trace := by
    rw [tts_trace]
    exact List.mem_cons_self _ _
  split
  · refine extWith_mem_old (sa_ext env cfg idx _ _) ?_
    have h2 := extWith_mem_old (cache_ext env cfg card.word
      (normalize_filename card.word ++ ".wav") _) hbase
    split_ifs with hcc
    · exact h2
    · exact List.mem_cons_of_mem _ h2
  · split_ifs with h429
    · have h20 : Event.ttsCall idx card.word (normalize_filename card.word) ∈
          (sleepFor 20 (tts_generate env cfg idx card.word (normalize_filename card.word)
            (update_state ProcessingState.generating_audio s)).2).trace :=
        List.mem_cons_of_mem _ hbase
      have h2 : Event.ttsCall idx card.word (normalize_filename card.word) ∈
          (tts_generate env cfg idx card.word (normalize_filename card.word)
            (sleepFor 20 (tts_generate env cfg idx card.word (normalize_filename card.word)
              (update_state ProcessingState.generating_audio s)).2)).2.trace := by
        rw [tts_trace]
        exact List.mem_cons_of_mem _ h20
      split
      · refine extWith_mem_old (sa_ext env cfg idx _ _) ?_
        refine List.mem_cons_of_mem _ ?_
        exact extWith_mem_old (cache_ext env cfg card.word
          (normalize_filename card.word ++ ".wav") _) h2
      · exact h2
      · exact h2
    · exact hbase
  · exact hbase

/-- Witness for C7 at a concrete stale entry. -/
theorem C7_stale_cache_entry_is_miss_witness :
    dictLookup (get_audio_cache_key wEnv wCard.word)
      (initS [] [("hund", "hund.wav")] [] none).cacheMetadata = some "hund.wav" ∧
    get_cached_audio wEnv {} (initS [] [("hund", "hund.wav")] [] none) wCard.word = none ∧
    Event.ttsCall 0 wCard.word (normalize_filename wCard.word) ∈
      (generate_audio_for_flashcard wEnv {} 0 wCard
        (initS [] [("hund", "hund.wav")] [] none)).2.2.trace :=
  ⟨by decide,
    (C7_stale_cache_entry_is_miss wEnv {} 0 wCard (initS [] [("hund", "hund.wav")] [] none)
      "hund.wav" (by decide) (by decide) rfl rfl).1,
    (C7_stale_cache_entry_is_miss wEnv {} 0 wCard (initS [] [("hund", "hund.wav")] [] none)
      "hund.wav" (by decide) (by decide) rfl rfl).2⟩

/-! ### Oracle-driven scenario lemmas for the audio stage -/

theorem update_trace (st : ProcessingState) (s : GenState) :
    (update_state st s).trace = Event.stateEv st :: s.trace := rfl

theorem pathExists_of_mem (p : String) (s : GenState) (h : p ∈ s.files) :
    pathExists p s = true := by
  simp only [pathExists]
  exact List.elem_eq_true_of_mem h

theorem sa_ext2 (env : Env) (cfg : GeneratorConfig) (idx : Nat) (card : FlashcardData)
    (s : GenState) :
    ExtWith (saEvent idx card) s.trace (sentence_audio env cfg idx card s).2.2.trace := by
  by_cases h : s.cancelled = true
  · unfold sentence_audio; rw [if_pos h]; exact extWith_refl _ _
  · unfold sentence_audio
    rw [if_neg h]
    dsimp only
    split
    · simp only [tts_cancelled, update_state, sleepFor, tts_trace, h, Bool.false_eq_true,
        if_false]
      exact extWith_cons_of (extWith_cons_of (extWith_cons_of (extWith_refl _ _) trivial)
        ⟨rfl, rfl⟩) trivial
    · split_ifs with h429
      · split <;>
          simp only [sleepFor, tts_trace, update_state] <;>
          first
          | exact extWith_cons_of (extWith_cons_of (extWith_cons_of (extWith_cons_of
              (extWith_cons_of (extWith_refl _ _) trivial) ⟨rfl, rfl⟩) trivial)
              ⟨rfl, rfl⟩) trivial
          | exact extWith_cons_of (extWith_cons_of (extWith_cons_of (extWith_cons_of
              (extWith_refl _ _) trivial) ⟨rfl, rfl⟩) trivial) ⟨rfl, rfl⟩
      · simp only [tts_trace, update_state]
        exact extWith_cons_of (extWith_cons_of (extWith_refl _ _) trivial) ⟨rfl, rfl⟩
    · simp only [tts_trace, update_state]
      exact extWith_cons_of (extWith_cons_of (extWith_refl _ _) trivial) ⟨rfl, rfl⟩

theorem sa_count (env : Env) (cfg : GeneratorConfig) (idx : Nat) (card : FlashcardData)
    (s : GenState) (w : String) (hs : card.example_sentence_da ≠ w) :
    (sentence_audio env cfg idx card s).2.2.trace.filter (isWordTts w) =
      s.trace.filter (isWordTts w) := by
  refine extWith_filter (sa_ext2 env cfg idx card s) _ ?_
  intro e he
  cases e with
  | ttsCall i t f =>
      obtain ⟨_, ht⟩ := he
      subst ht
      simp [isWordTts, hs]
  | sleepEv d => rfl
  | copyEv a b => rfl
  | stateEv st => rfl
  | geminiCall word => exact he.elim
  | publishCopy i a b => exact he.elim
  | noteAdd i m r o => exact he.elim
  | audioCall i word est => exact he.elim

theorem sa_ok (env : Env) (cfg : GeneratorConfig) (idx : Nat) (card : FlashcardData)
    (s : GenState) (hcanc : s.cancelled = false)
    (h1 : env.tts s.ttsCalls = TtsResult.ok) :
    (sentence_audio env cfg idx card s).1 = { card with audio_sentence_file := some (normalize_filename card.word ++ "_sentence" ++ ".wav") } ∧
    (sentence_audio env cfg idx card s).2.1 = true ∧
    (sentence_audio env cfg idx card s).2.2.ttsCalls = s.ttsCalls + 1 := by
  unfold sentence_audio
  rw [if_neg (by simp [hcanc])]
  try dsimp only
  rw [tts_generate_fst]
  rw [show (update_state ProcessingState.generating_audio s).ttsCalls = s.ttsCalls from rfl]
  rw [h1]
  try dsimp only
  refine ⟨rfl, rfl, ?_⟩
  simp [tts_cancelled, tts_ttsCalls, sleepFor, update_state, hcanc]

theorem sa_429ok (env : Env) (cfg : GeneratorConfig) (idx : Nat) (card : FlashcardData)
    (s : GenState) (m : String) (hcanc : s.cancelled = false)
    (h1 : env.tts s.ttsCalls = TtsResult.clientError 429 m)
    (h2 : env.tts (s.ttsCalls + 1) = TtsResult.ok) :
    (sentence_audio env cfg idx card s).1 = { card with audio_sentence_file := some (normalize_filename card.word ++ "_sentence" ++ ".wav") } ∧
    (sentence_audio env cfg idx card s).2.1 = true ∧
    (sentence_audio env cfg idx card s).2.2.ttsCalls = s.ttsCalls + 2 ∧
    Event.sleepEv 20 ∈ (sentence_audio env cfg idx card s).2.2.trace := by
  unfold sentence_audio
  rw [if_neg (by simp [hcanc])]
  try dsimp only
  rw [tts_generate_fst]
  rw [show (update_state ProcessingState.generating_audio s).ttsCalls = s.ttsCalls from rfl]
  rw [h1]
  try dsimp only
  rw [if_pos rfl]
  try dsimp only
  rw [tts_generate_fst]
  rw [show (sleepFor 20 (tts_generate env cfg idx card.example_sentence_da
      (normalize_filename card.word ++ "_sentence")
      (update_state ProcessingState.generating_audio s)).2).ttsCalls = s.ttsCalls + 1 by
    simp [sleepFor, tts_ttsCalls, update_state]]
  rw [h2]
  try dsimp only
  refine ⟨rfl, rfl, ?_, ?_⟩
  · simp [sleepFor, tts_ttsCalls, update_state]
  · refine List.mem_cons_of_mem _ ?_
    rw [tts_trace]
    refine List.mem_cons_of_mem _ ?_
    exact List.mem_cons_self _ _

theorem sa_429fail (env : Env) (cfg : GeneratorConfig) (idx : Nat) (card : FlashcardData)
    (s : GenState) (m : String) (hcanc : s.cancelled = false)
    (h1 : env.tts s.ttsCalls = TtsResult.clientError 429 m)
    (h2 : env.tts (s.ttsCalls + 1) ≠ TtsResult.ok) :
    (∃ msg, (sentence_audio env cfg idx card s).1 = { card with error := some msg }) ∧
    (sentence_audio env cfg idx card s).2.1 = false ∧
    (sentence_audio env cfg idx card s).2.2.ttsCalls = s.ttsCalls + 2 ∧
    Event.sleepEv 20 ∈ (sentence_audio env cfg idx card s).2.2.trace := by
  unfold sentence_audio
  rw [if_neg (by simp [hcanc])]
  try dsimp only
  rw [tts_generate_fst]
  rw [show (update_state ProcessingState.generating_audio s).ttsCalls = s.ttsCalls from rfl]
  rw [h1]
  try dsimp only
  rw [if_pos rfl]
  try dsimp only
  rw [tts_generate_fst]
  rw [show (sleepFor 20 (tts_generate env cfg idx card.example_sentence_da
      (normalize_filename card.word ++ "_sentence")
      (update_state ProcessingState.generating_audio s)).2).ttsCalls = s.ttsCalls + 1 by
    simp [sleepFor, tts_ttsCalls, update_state]]
  cases hr : env.tts (s.ttsCalls + 1) with
  | ok => exact absurd hr h2
  | clientError c2 m2 =>
      try dsimp only
      refine ⟨⟨_, rfl⟩, rfl, ?_, ?_⟩
      · simp [tts_ttsCalls, sleepFor, update_state]
      · rw [tts_trace]
        refine List.mem_cons_of_mem _ ?_
        simp [sleepFor]
  | otherError m2 =>
      try dsimp only
      refine ⟨⟨_, rfl⟩, rfl, ?_, ?_⟩
      · simp [tts_ttsCalls, sleepFor, update_state]
      · rw [tts_trace]
        refine List.mem_cons_of_mem _ ?_
        simp [sleepFor]

theorem sa_fail (env : Env) (cfg : GeneratorConfig) (idx : Nat) (card : FlashcardData)
    (s : GenState) (hcanc : s.cancelled = false)
    (h1 : (∃ m, env.tts s.ttsCalls = TtsResult.otherError m) ∨
      (∃ c m, env.tts s.ttsCalls = TtsResult.clientError c m ∧ c ≠ 429)) :
    (∃ msg, (sentence_audio env cfg idx card s).1 = { card with error := some msg }) ∧
    (sentence_audio env cfg idx card s).2.1 = false ∧
    (sentence_audio env cfg idx card s).2.2.ttsCalls = s.ttsCalls + 1 := by
  unfold sentence_audio
  rw [if_neg (by simp [hcanc])]
  try dsimp only
  rw [tts_generate_fst]
  rw [show (update_state ProcessingState.generating_audio s).ttsCalls = s.ttsCalls from rfl]
  rcases h1 with ⟨m, hm⟩ | ⟨c, m, hm, hc⟩
  · rw [hm]
    try dsimp only
    exact ⟨⟨_, rfl⟩, rfl, by simp [tts_ttsCalls, update_state]⟩
  · rw [hm]
    try dsimp only
    rw [if_neg hc]
    exact ⟨⟨_, rfl⟩, rfl, by simp [tts_ttsCalls, update_state]⟩

theorem cache_audio_stores (env : Env) (cfg : GeneratorConfig) (text fname : String)
    (s1 : GenState)
    (hsrc : pathExists (joinPath cfg.audio_dir fname) s1 = true ∨
      pathExists (joinPath cfg.audio_dir fname ++ ".wav") s1 = true) :
    dictLookup (get_audio_cache_key env text) (cache_audio env cfg text fname s1).2.cacheMetadata =
      some (get_audio_cache_key env text ++ ".wav") ∧
    joinPath cfg.audio_cache_dir (get_audio_cache_key env text ++ ".wav") ∈
      (cache_audio env cfg text fname s1).2.files := by
  unfold cache_audio
  dsimp only
  split_ifs with ha hb
  · exact ⟨dictLookup_insert_self _ _ _, by simp [copyFile]⟩
  · exact ⟨dictLookup_insert_self _ _ _, by simp [copyFile]⟩
  · rcases hsrc with h | h
    · exact absurd h (by simp [ha])
    · exact absurd h (by simp [hb])

theorem tts_ok_src (env : Env) (cfg : GeneratorConfig) (idx : Nat) (text fname : String)
    (s : GenState) (h1 : env.tts s.ttsCalls = TtsResult.ok) :
    pathExists (joinPath cfg.audio_dir (fname ++ ".wav"))
      (tts_generate env cfg idx text fname s).2 = true ∨
    pathExists (joinPath cfg.audio_dir (fname ++ ".wav") ++ ".wav")
      (tts_generate env cfg idx text fname s).2 = true := by
  have hws : (".wav" ++ ".wav" : String) = ".wav.wav" := by decide
  by_cases hd : env.ttsDoubled s.ttsCalls = true
  · right
    have hpath : joinPath cfg.audio_dir (fname ++ ".wav") ++ ".wav" =
        joinPath cfg.audio_dir (fname ++ ".wav.wav") := by
      simp [joinPath, String.append_assoc, hws]
    rw [hpath]
    simp [tts_generate, h1, hd, pathExists]
  · left
    simp [tts_generate, h1, hd, pathExists]

theorem ga_word_ok (env : Env) (cfg : GeneratorConfig) (idx : Nat) (card : FlashcardData)
    (s : GenState) (hcanc : s.cancelled = false) (herr : card.error = none)
    (hmiss : get_cached_audio env cfg s card.word = none)
    (h1 : env.tts s.ttsCalls = TtsResult.ok) :
    ∃ s', generate_audio_for_flashcard env cfg idx card s =
        sentence_audio env cfg idx { card with audio_word_file := some (normalize_filename card.word ++ ".wav") } s' ∧
      s'.cancelled = false ∧ s'.ttsCalls = s.ttsCalls + 1 ∧
      dictLookup (get_audio_cache_key env card.word) s'.cacheMetadata =
        some (get_audio_cache_key env card.word ++ ".wav") ∧
      joinPath cfg.audio_cache_dir (get_audio_cache_key env card.word ++ ".wav") ∈ s'.files ∧
      (s'.trace.filter (isWordTts card.word)).length =
        (s.trace.filter (isWordTts card.word)).length + 1 := by
  unfold generate_audio_for_flashcard
  rw [if_neg (by simp [hcanc]), if_neg (by simp [herr])]
  dsimp only
  rw [hmiss]
  dsimp only
  rw [tts_generate_fst]
  rw [show (update_state ProcessingState.generating_audio s).ttsCalls = s.ttsCalls from rfl]
  rw [h1]
  dsimp only
  obtain ⟨hmeta, hfile⟩ := cache_audio_stores env cfg card.word
    (normalize_filename card.word ++ ".wav")
    (tts_generate env cfg idx card.word (normalize_filename card.word)
      (update_state ProcessingState.generating_audio s)).2
    (tts_ok_src env cfg idx card.word (normalize_filename card.word)
      (update_state ProcessingState.generating_audio s) h1)
  have hCC : (cache_audio env cfg card.word (normalize_filename card.word ++ ".wav")
      (tts_generate env cfg idx card.word (normalize_filename card.word)
        (update_state ProcessingState.generating_audio s)).2).2.cancelled = false := by
    simp [cache_cancelled, tts_cancelled, update_state, hcanc]
  rw [if_neg (by simp [hCC])]
  refine ⟨_, rfl, ?_, ?_, hmeta, hfile, ?_⟩
  · simp [sleepFor, hCC]
  · simp [sleepFor, cache_ttsCalls, tts_ttsCalls, update_state]
  · have hcf := extWith_filter (cache_ext env cfg card.word (normalize_filename card.word ++ ".wav")
      (tts_generate env cfg idx card.word (normalize_filename card.word)
        (update_state ProcessingState.generating_audio s)).2) (isWordTts card.word)
      (fun e he => by obtain ⟨a, b, rfl⟩ := he; rfl)
    simp [sleepFor, List.filter_cons, isWordTts, hcf, tts_trace, update_trace]

theorem ga_word_429ok (env : Env) (cfg : GeneratorConfig) (idx : Nat) (card : FlashcardData)
    (s : GenState) (m : String) (hcanc : s.cancelled = false) (herr : card.error = none)
    (hmiss : get_cached_audio env cfg s card.word = none)
    (h1 : env.tts s.ttsCalls = TtsResult.clientError 429 m)
    (h2 : env.tts (s.ttsCalls + 1) = TtsResult.ok) :
    ∃ s', generate_audio_for_flashcard env cfg idx card s =
        sentence_audio env cfg idx { card with audio_word_file := some (normalize_filename card.word ++ ".wav") } s' ∧
      s'.cancelled = false ∧ s'.ttsCalls = s.ttsCalls + 2 ∧
      Event.sleepEv 20 ∈ s'.trace := by
  unfold generate_audio_for_flashcard
  rw [if_neg (by simp [hcanc]), if_neg (by simp [herr])]
  dsimp only
  rw [hmiss]
  dsimp only
  rw [tts_generate_fst]
  rw [show (update_state ProcessingState.generating_audio s).ttsCalls = s.ttsCalls from rfl]
  rw [h1]
  dsimp only
  rw [if_pos rfl]
  try dsimp only
  rw [tts_generate_fst]
  rw [show (sleepFor 20 (tts_generate env cfg idx card.word (normalize_filename card.word)
      (update_state ProcessingState.generating_audio s)).2).ttsCalls = s.ttsCalls + 1 by
    simp [sleepFor, tts_ttsCalls, update_state]]
  rw [h2]
  dsimp only
  refine ⟨_, rfl, ?_, ?_, ?_⟩
  · simp [sleepFor, cache_cancelled, tts_cancelled, update_state, hcanc]
  · simp [sleepFor, cache_ttsCalls, tts_ttsCalls, update_state]
  · refine List.mem_cons_of_mem _ ?_
    refine extWith_mem_old (cache_ext env cfg card.word
      (normalize_filename card.word ++ ".wav") _) ?_
    rw [tts_trace]
    refine List.mem_cons_of_mem _ ?_
    exact List.mem_cons_self _ _

theorem ga_word_429fail (env : Env) (cfg : GeneratorConfig) (idx : Nat) (card : FlashcardData)
    (s : GenState) (m : String) (hcanc : s.cancelled = false) (herr : card.error = none)
    (hmiss : get_cached_audio env cfg s card.word = none)
    (h1 : env.tts s.ttsCalls = TtsResult.clientError 429 m)
    (h2 : env.tts (s.ttsCalls + 1) ≠ TtsResult.ok) :
    (∃ msg, (generate_audio_for_flashcard env cfg idx card s).1 = { card with error := some msg }) ∧
    (generate_audio_for_flashcard env cfg idx card s).2.1 = false ∧
    (generate_audio_for_flashcard env cfg idx card s).2.2.ttsCalls = s.ttsCalls + 2 ∧
    Event.sleepEv 20 ∈ (generate_audio_for_flashcard env cfg idx card s).2.2.trace := by
  unfold generate_audio_for_flashcard
  rw [if_neg (by simp [hcanc]), if_neg (by simp [herr])]
  dsimp only
  rw [hmiss]
  dsimp only
  rw [tts_generate_fst]
  rw [show (update_state ProcessingState.generating_audio s).ttsCalls = s.ttsCalls from rfl]
  rw [h1]
  dsimp only
  rw [if_pos rfl]
  try dsimp only
  rw [tts_generate_fst]
  rw [show (sleepFor 20 (tts_generate env cfg idx card.word (normalize_filename card.word)
      (update_state ProcessingState.generating_audio s)).2).ttsCalls = s.ttsCalls + 1 by
    simp [sleepFor, tts_ttsCalls, update_state]]
  cases hr : env.tts (s.ttsCalls + 1) with
  | ok => exact absurd hr h2
  | clientError c2 m2 =>
      dsimp only
      refine ⟨⟨_, rfl⟩, rfl, ?_, ?_⟩
      · simp [tts_ttsCalls, sleepFor, update_state]
      · rw [tts_trace]
        refine List.mem_cons_of_mem _ ?_
        simp [sleepFor]
  | otherError m2 =>
      dsimp only
      refine ⟨⟨_, rfl⟩, rfl, ?_, ?_⟩
      · simp [tts_ttsCalls, sleepFor, update_state]
      · rw [tts_trace]
        refine List.mem_cons_of_mem _ ?_
        simp [sleepFor]

theorem ga_word_fail (env : Env) (cfg : GeneratorConfig) (idx : Nat) (card : FlashcardData)
    (s : GenState) (hcanc : s.cancelled = false) (herr : card.error = none)
    (hmiss : get_cached_audio env cfg s card.word = none)
    (h1 : (∃ m, env.tts s.ttsCalls = TtsResult.otherError m) ∨
      (∃ c m, env.tts s.ttsCalls = TtsResult.clientError c m ∧ c ≠ 429)) :
    (∃ msg, (generate_audio_for_flashcard env cfg idx card s).1 = { card with error := some msg }) ∧
    (generate_audio_for_flashcard env cfg idx card s).2.1 = false ∧
    (generate_audio_for_flashcard env cfg idx card s).2.2.ttsCalls = s.ttsCalls + 1 := by
  unfold generate_audio_for_flashcard
  rw [if_neg (by simp [hcanc]), if_neg (by simp [herr])]
  dsimp only
  rw [hmiss]
  dsimp only
  rw [tts_generate_fst]
  rw [show (update_state ProcessingState.generating_audio s).ttsCalls = s.ttsCalls from rfl]
  rcases h1 with ⟨m, hm⟩ | ⟨c, m, hm, hc⟩
  · rw [hm]
    dsimp only
    exact ⟨⟨_, rfl⟩, rfl, by simp [tts_ttsCalls, update_state]⟩
  · rw [hm]
    dsimp only
    rw [if_neg hc]
    exact ⟨⟨_, rfl⟩, rfl, by simp [tts_ttsCalls, update_state]⟩

/-- C2: in the audio stage, a synthesis call failing with HTTP 429 is retried
exactly once after a 20-second backoff: word-part 429 followed by a successful
retry and sentence success yields a record with both audio references and no
error; a failed retry sets the record's error after exactly two backend calls;
a sentence-part double failure keeps the already-completed word audio on the
errored record; any non-429 backend error marks the record failed after a
single call with no retry. -/
theorem C2_rate_limit_retry (env : Env) (cfg : GeneratorConfig) (idx : Nat)
    (card : FlashcardData) (s : GenState) (hcanc : s.cancelled = false)
    (herr : card.error = none)
    (hmiss : get_cached_audio env cfg s card.word = none) :
    (∀ m, env.tts s.ttsCalls = TtsResult.clientError 429 m →
      env.tts (s.ttsCalls + 1) = TtsResult.ok →
      env.tts (s.ttsCalls + 2) = TtsResult.ok →
      (generate_audio_for_flashcard env cfg idx card s).1 =
        { card with audio_word_file := some (normalize_filename card.word ++ ".wav"), audio_sentence_file := some (normalize_filename card.word ++ "_sentence" ++ ".wav") } ∧
      (generate_audio_for_flashcard env cfg idx card s).2.1 = true ∧
      (generate_audio_for_flashcard env cfg idx card s).2.2.ttsCalls = s.ttsCalls + 3 ∧
      Event.sleepEv 20 ∈ (generate_audio_for_flashcard env cfg idx card s).2.2.trace) ∧
    (∀ m, env.tts s.ttsCalls = TtsResult.clientError 429 m →
      env.tts (s.ttsCalls + 1) ≠ TtsResult.ok →
      (∃ msg, (generate_audio_for_flashcard env cfg idx card s).1 =
        { card with error := some msg }) ∧
      (generate_audio_for_flashcard env cfg idx card s).2.1 = false ∧
      (generate_audio_for_flashcard env cfg idx card s).2.2.ttsCalls = s.ttsCalls + 2 ∧
      Event.sleepEv 20 ∈ (generate_audio_for_flashcard env cfg idx card s).2.2.trace) ∧
    (∀ m, env.tts s.ttsCalls = TtsResult.ok →
      env.tts (s.ttsCalls + 1) = TtsResult.clientError 429 m →
      env.tts (s.ttsCalls + 2) ≠ TtsResult.ok →
      (∃ msg, (generate_audio_for_flashcard env cfg idx card s).1 =
        { card with audio_word_file := some (normalize_filename card.word ++ ".wav"), error := some msg }) ∧
      (generate_audio_for_flashcard env cfg idx card s).2.1 = false ∧
      (generate_audio_for_flashcard env cfg idx card s).2.2.ttsCalls = s.ttsCalls + 3 ∧
      Event.sleepEv 20 ∈ (generate_audio_for_flashcard env cfg idx card s).2.2.trace) ∧
    ((∃ m, env.tts s.ttsCalls = TtsResult.otherError m) ∨
      (∃ c m, env.tts s.ttsCalls = TtsResult.clientError c m ∧ c ≠ 429) →
      (∃ msg, (generate_audio_for_flashcard env cfg idx card s).1 =
        { card with error := some msg }) ∧
      (generate_audio_for_flashcard env cfg idx card s).2.1 = false ∧
      (generate_audio_for_flashcard env cfg idx card s).2.2.ttsCalls = s.ttsCalls + 1) := by
  refine ⟨?_, ?_, ?_, ?_⟩
  · intro m h1 h2 h3
    obtain ⟨s', heq, hc', hT, hsleep⟩ := ga_word_429ok env cfg idx card s m hcanc herr hmiss h1 h2
    rw [heq]
    have h3' : env.tts s'.ttsCalls = TtsResult.ok := by
      rw [hT]
      exact h3
    obtain ⟨hcard, hcont, htts⟩ := sa_ok env cfg idx
      { card with audio_word_file := some (normalize_filename card.word ++ ".wav") } s' hc' h3'
    refine ⟨hcard, hcont, ?_, ?_⟩
    · rw [htts, hT]
    · exact extWith_mem_old (sa_ext env cfg idx _ s') hsleep
  · intro m h1 h2
    exact ga_word_429fail env cfg idx card s m hcanc herr hmiss h1 h2
  · intro m h1 h2 h3
    obtain ⟨s', heq, hc', hT, _hmeta, _hfile, _hcnt⟩ := ga_word_ok env cfg idx card s hcanc herr hmiss h1
    rw [heq]
    have h2' : env.tts s'.ttsCalls = TtsResult.clientError 429 m := by
      rw [hT]
      exact h2
    have h3' : env.tts (s'.ttsCalls + 1) ≠ TtsResult.ok := by
      rw [hT]
      have hpl : s.ttsCalls + 1 + 1 = s.ttsCalls + 2 := by omega
      rw [hpl]
      exact h3
    obtain ⟨⟨msg, hcard⟩, hcont, htts, hsleep⟩ := sa_429fail env cfg idx
      { card with audio_word_file := some (normalize_filename card.word ++ ".wav") } s' m hc' h2' h3'
    refine ⟨⟨msg, hcard⟩, hcont, ?_, hsleep⟩
    rw [htts, hT]
  · intro h1
    exact ga_word_fail env cfg idx card s hcanc herr hmiss h1

/-- Witness for C2: concrete rate-limited first call, successful retry. -/
theorem C2_rate_limit_retry_witness :
    wEnv429.tts 0 = TtsResult.clientError 429 "rate" ∧
    wEnv429.tts 1 = TtsResult.ok ∧
    (generate_audio_for_flashcard wEnv429 {} 0 wCard (initS [] [] [] none)).1 =
      { wCard with audio_word_file := some (normalize_filename wCard.word ++ ".wav"), audio_sentence_file := some (normalize_filename wCard.word ++ "_sentence" ++ ".wav") } ∧
    (generate_audio_for_flashcard wEnv429 {} 0 wCard (initS [] [] [] none)).2.2.ttsCalls = 3 ∧
    Event.sleepEv 20 ∈ (generate_audio_for_flashcard wEnv429 {} 0 wCard (initS [] [] [] none)).2.2.trace := by
  have h := (C2_rate_limit_retry wEnv429 {} 0 wCard (initS [] [] [] none) rfl rfl
    (by decide)).1 "rate" (by decide) (by decide) (by decide)
  exact ⟨by decide, by decide, h.1, h.2.2.1, h.2.2.2⟩

/-- C6: requesting word audio twice for the same text makes exactly one
backend synthesis call: the first request synthesizes and stores a cache
entry keyed by the md5 hash of the text, and the second request is a cache
hit served by copying the cached artifact into the working audio directory,
so the combined trace holds exactly one synthesis call for that text. -/
theorem C6_word_audio_cached_once (env : Env) (cfg : GeneratorConfig) (i1 i2 : Nat)
    (card1 card2 : FlashcardData) (s : GenState)
    (hcanc : s.cancelled = false) (herr1 : card1.error = none) (herr2 : card2.error = none)
    (hw : card2.word = card1.word)
    (hmiss : get_cached_audio env cfg s card1.word = none)
    (h1 : env.tts s.ttsCalls = TtsResult.ok)
    (hs1 : card1.example_sentence_da ≠ card1.word)
    (hs2 : card2.example_sentence_da ≠ card1.word)
    (hcnt0 : (s.trace.filter (isWordTts card1.word)).length = 0) :
    dictLookup (get_audio_cache_key env card1.word)
      (generate_audio_for_flashcard env cfg i1 card1 s).2.2.cacheMetadata =
      some (get_audio_cache_key env card1.word ++ ".wav") ∧
    get_cached_audio env cfg (generate_audio_for_flashcard env cfg i1 card1 s).2.2 card2.word =
      some (get_audio_cache_key env card1.word ++ ".wav") ∧
    Event.copyEv (joinPath cfg.audio_cache_dir (get_audio_cache_key env card1.word ++ ".wav"))
        (joinPath cfg.audio_dir (normalize_filename card2.word ++ ".wav")) ∈
      (generate_audio_for_flashcard env cfg i2 card2
        (generate_audio_for_flashcard env cfg i1 card1 s).2.2).2.2.trace ∧
    ((generate_audio_for_flashcard env cfg i2 card2
        (generate_audio_for_flashcard env cfg i1 card1 s).2.2).2.2.trace.filter
      (isWordTts card1.word)).length = 1 := by
  obtain ⟨s', heq1, hc', hT, hmeta, hfile, hcnt1⟩ :=
    ga_word_ok env cfg i1 card1 s hcanc herr1 hmiss h1
  have hA : dictLookup (get_audio_cache_key env card1.word)
      (generate_audio_for_flashcard env cfg i1 card1 s).2.2.cacheMetadata =
      some (get_audio_cache_key env card1.word ++ ".wav") := by
    rw [heq1, sa_meta]
    exact hmeta
  have ht1files : joinPath cfg.audio_cache_dir (get_audio_cache_key env card1.word ++ ".wav") ∈
      (generate_audio_for_flashcard env cfg i1 card1 s).2.2.files := by
    rw [heq1]
    exact sa_files_sub env cfg i1 _ s' _ hfile
  have hB : get_cached_audio env cfg (generate_audio_for_flashcard env cfg i1 card1 s).2.2
      card2.word = some (get_audio_cache_key env card1.word ++ ".wav") := by
    rw [hw]
    unfold get_cached_audio
    rw [hA]
    simp [pathExists_of_mem _ _ ht1files]
  have hc1 : (generate_audio_for_flashcard env cfg i1 card1 s).2.2.cancelled = false := by
    rw [heq1, sa_cancelled]
    exact hc'
  have hcntT1 : ((generate_audio_for_flashcard env cfg i1 card1 s).2.2.trace.filter
      (isWordTts card1.word)).length = 1 := by
    rw [heq1, sa_count env cfg i1
      { card1 with audio_word_file := some (normalize_filename card1.word ++ ".wav") }
      s' card1.word hs1, hcnt1, hcnt0]
  refine ⟨hA, hB, ?_⟩
  generalize (generate_audio_for_flashcard env cfg i1 card1 s).2.2 = t1 at hB hc1 hcntT1 ⊢
  unfold generate_audio_for_flashcard
  rw [if_neg (by simp [hc1]), if_neg (by simp [herr2])]
  dsimp only
  rw [hB]
  dsimp only
  constructor
  · refine extWith_mem_old (sa_ext env cfg i2 _ _) ?_
    exact List.mem_cons_self _ _
  · rw [sa_count env cfg i2
      { card2 with audio_word_file := some (normalize_filename card2.word ++ ".wav") }
      _ card1.word hs2]
    simp [copyFile, List.filter_cons, isWordTts, hcntT1]

/-- Witness for C6: back-to-back audio generation for the same concrete word. -/
theorem C6_word_audio_cached_once_witness :
    get_cached_audio wEnvOk {} (generate_audio_for_flashcard wEnvOk {} 0 wCard
        (initS [] [] [] none)).2.2 wCard.word =
      some (get_audio_cache_key wEnvOk wCard.word ++ ".wav") ∧
    ((generate_audio_for_flashcard wEnvOk {} 1 wCard
        (generate_audio_for_flashcard wEnvOk {} 0 wCard (initS [] [] [] none)).2.2).2.2.trace.filter
      (isWordTts wCard.word)).length = 1 := by
  have h := C6_word_audio_cached_once wEnvOk {} 0 1 wCard wCard (initS [] [] [] none)
    rfl rfl rfl rfl (by decide) (by decide) (by decide) (by decide) rfl
  exact ⟨h.2.1, h.2.2.2⟩

/-- C8: during publication of a non-errored record with reverse cards enabled,
a failed forward note submission sets the record's error and no reverse note
is submitted for it, while a successful forward submission leaves the record
unchanged (null error) even if the reverse submission then fails — the reverse
failure is only logged.  Forward outcomes are read off the note-submission
events of the record's position. -/
theorem C8_forward_failure_skips_reverse (env : Env) (cfg : GeneratorConfig)
    (cards : List FlashcardData) (s : GenState) (k : Nat) (c : FlashcardData)
    (hrev : cfg.generate_reverse_cards = true)
    (hget : cards.get? k = some c) (herr : c.error = none)
    (hcanc : s.cancelled = false)
    (hnot : ∀ m r o, Event.noteAdd k m r o ∉ s.trace) :
    (Event.noteAdd k cfg.model_name false false ∈ (send_to_anki env cfg cards s).2.trace →
      (∃ msg, (send_to_anki env cfg cards s).1.get? k = some { c with error := some msg }) ∧
      (∀ m o, Event.noteAdd k m true o ∉ (send_to_anki env cfg cards s).2.trace)) ∧
    (Event.noteAdd k cfg.model_name false true ∈ (send_to_anki env cfg cards s).2.trace →
      (send_to_anki env cfg cards s).1.get? k = some c) := by
  have hnot' : ∀ m r o, Event.noteAdd k m r o ∉
      (update_state ProcessingState.sending_to_anki s).trace := by
    rw [update_trace]
    exact not_note_cons _ (fun m r o heq => by exact Event.noConfusion heq) hnot
  have hnot0 : ∀ m r o, Event.noteAdd (0 + k) m r o ∉
      (update_state ProcessingState.sending_to_anki s).trace := by
    rw [Nat.zero_add]
    exact hnot'
  have h := send_loop_c8 env cfg cards 0
    (update_state ProcessingState.sending_to_anki s) k c hget herr hcanc hnot0
  rw [Nat.zero_add] at h
  exact h

/-- Witness for C8: a concrete failing forward submission. -/
theorem C8_forward_failure_skips_reverse_witness :
    (∃ msg, (send_to_anki wEnvNoteFail wCfgRev [wCard] (initS [] [] [] none)).1.get? 0 =
      some { wCard with error := some msg }) ∧
    Event.noteAdd 0 wCfgRev.reverse_model_name true false ∉
      (send_to_anki wEnvNoteFail wCfgRev [wCard] (initS [] [] [] none)).2.trace := by
  have h := (C8_forward_failure_skips_reverse wEnvNoteFail wCfgRev [wCard]
    (initS [] [] [] none) 0 wCard rfl rfl rfl rfl
    (fun m r o hm => by simp [initS] at hm)).1 (by decide)
  exact ⟨h.1, h.2 wCfgRev.reverse_model_name false⟩

theorem post_audio_audioCall (env : Env) (cfg : GeneratorConfig) (cards2 : List FlashcardData)
    (s2 : GenState) (i : Nat) (w : String) (est : Option ℚ)
    (hm : Event.audioCall i w est ∈
      ({ update_state ProcessingState.completed
          (if (copy_audio_to_anki env cfg cards2 s2).1
           then (send_to_anki env cfg cards2 (copy_audio_to_anki env cfg cards2 s2).2).2
           else (copy_audio_to_anki env cfg cards2 s2).2) with checkpointFile := none }).trace) :
    Event.audioCall i w est ∈ s2.trace := by
  have h1 : ({ update_state ProcessingState.completed
      (if (copy_audio_to_anki env cfg cards2 s2).1
       then (send_to_anki env cfg cards2 (copy_audio_to_anki env cfg cards2 s2).2).2
       else (copy_audio_to_anki env cfg cards2 s2).2) with checkpointFile := none } : GenState).trace =
      Event.stateEv ProcessingState.completed ::
      (if (copy_audio_to_anki env cfg cards2 s2).1
       then (send_to_anki env cfg cards2 (copy_audio_to_anki env cfg cards2 s2).2).2
       else (copy_audio_to_anki env cfg cards2 s2).2).trace := rfl
  rw [h1] at hm
  rcases List.mem_cons.mp hm with h | h
  · exact Event.noConfusion h
  · have h2 : Event.audioCall i w est ∈ (copy_audio_to_anki env cfg cards2 s2).2.trace := by
      by_cases hcp : (copy_audio_to_anki env cfg cards2 s2).1 = true
      · rw [if_pos hcp] at h
        rcases extWith_mem_elim (send_anki_snd env cfg cards2 _).1 h with h3 | h3
        · exact h3
        · rcases h3 with ⟨_, _, _, _, hh⟩ | ⟨_, hh⟩ <;> exact Event.noConfusion hh
      · rw [if_neg hcp] at h
        exact h
    rcases extWith_mem_elim (copy_anki_snd env cfg cards2 s2).1 h2 with h3 | h3
    · exact h3
    · rcases h3 with ⟨_, _, _, hh⟩ | ⟨_, hh⟩ <;> exact Event.noConfusion hh

/-- C9: every audio-stage invocation event of a full run carries an estimate
that was recomputed just before the call as (records not yet finished after
this one) × 2 synthesis calls × the configured inter-request delay. -/
theorem C9_estimate_recomputed (env : Env) (cfg : GeneratorConfig) (cancelAt : Option Nat)
    (s0 : GenState) (i : Nat) (w : String) (est : Option ℚ)
    (h0 : ∀ i' w' e', Event.audioCall i' w' e' ∉ s0.trace)
    (hmem : Event.audioCall i w est ∈ (run env cfg cancelAt s0).2.trace) :
    est = some (((((runContent env cancelAt s0).1.length - (i + 1)) * 2 : Nat) : ℚ) *
      cfg.tts_delay) := by
  have hct : ∀ i' w' e', Event.audioCall i' w' e' ∉ (runContent env cancelAt s0).2.trace := by
    intro i' w' e' hm
    rcases extWith_mem_elim (runContent_snd env cancelAt s0).1 hm with h | h
    · exact h0 i' w' e' h
    · rcases h with ⟨w2, hh⟩ | ⟨st, hh⟩ <;> exact Event.noConfusion hh
  unfold run at hmem
  by_cases hw : env.wordsFileExists = false
  · rw [if_pos hw] at hmem
    simp only [update_state, List.mem_cons] at hmem
    rcases hmem with h | h | h
    · exact Event.noConfusion h
    · exact Event.noConfusion h
    · exact absurd h (h0 i w est)
  · rw [if_neg hw] at hmem
    by_cases hempty : (runWords env).isEmpty = true
    · rw [if_pos hempty] at hmem
      simp only [update_state, List.mem_cons] at hmem
      rcases hmem with h | h | h
      · exact Event.noConfusion h
      · exact Event.noConfusion h
      · exact absurd h (h0 i w est)
    · rw [if_neg hempty] at hmem
      dsimp only at hmem
      by_cases hcanc : (runContent env cancelAt s0).2.cancelled = true
      · rw [if_pos hcanc] at hmem
        exact absurd hmem (hct i w est)
      · rw [if_neg hcanc] at hmem
        try dsimp only at hmem
        by_cases htm : cfg.test_mode = true
        · rw [if_pos htm] at hmem
          try dsimp only at hmem
          rw [if_neg hcanc] at hmem
          exact absurd (post_audio_audioCall env cfg _ _ i w est hmem) (hct i w est)
        · rw [if_neg htm] at hmem
          try dsimp only at hmem
          by_cases hc2 : (audioLoop env cfg (runContent env cancelAt s0).1.length
              (runContent env cancelAt s0).1 0 (runContent env cancelAt s0).2).2.cancelled = true
          · rw [if_pos hc2] at hmem
            rcases audioLoop_audioCall_chr env cfg _ _ _ _ i w est hmem with h | h
            · exact absurd h (hct i w est)
            · exact h
          · rw [if_neg hc2] at hmem
            rcases audioLoop_audioCall_chr env cfg _ _ _ _ i w est
              (post_audio_audioCall env cfg _ _ i w est hmem) with h | h
            · exact absurd h (hct i w est)
            · exact h

/-- Witness for C9: the single audio call of a concrete one-word run carries
the recomputed estimate. -/
theorem C9_estimate_recomputed_witness :
    Event.audioCall 0 "hund"
      (some ((((1 - (0 + 1)) * 2 : Nat) : ℚ) * ({} : GeneratorConfig).tts_delay)) ∈
      (run wEnvOk {} none (initS [] [] [] none)).2.trace ∧
    (some ((((1 - (0 + 1)) * 2 : Nat) : ℚ) * ({} : GeneratorConfig).tts_delay) : Option ℚ) =
      some (((((runContent wEnvOk none (initS [] [] [] none)).1.length - (0 + 1)) * 2 : Nat) : ℚ) *
        ({} : GeneratorConfig).tts_delay) := by
  have hmem : Event.audioCall 0 "hund"
      (some ((((1 - (0 + 1)) * 2 : Nat) : ℚ) * ({} : GeneratorConfig).tts_delay)) ∈
      (run wEnvOk {} none (initS [] [] [] none)).2.trace := by
    refine List.mem_cons_of_mem _ (List.mem_cons_of_mem _ (List.mem_cons_of_mem _
      (List.mem_cons_of_mem _ (List.mem_cons_of_mem _ (List.mem_cons_of_mem _
      (List.mem_cons_of_mem _ (List.mem_cons_of_mem _ (List.mem_cons_of_mem _
      (List.mem_cons_self _ _)))))))))
  have happ := C9_estimate_recomputed wEnvOk {} none (initS [] [] [] none) 0 "hund" _
    (fun i' w' e' h => by simp [initS] at h) hmem
  exact ⟨hmem, happ⟩

theorem copy_anki_no_pub (env : Env) (cfg : GeneratorConfig) (cards : List FlashcardData)
    (s : GenState) (k : Nat) (c : FlashcardData)
    (hg : cards.get? k = some c) (he : c.error.isSome = true)
    (hn : ∀ a b, Event.publishCopy k a b ∉ s.trace) :
    ∀ a b, Event.publishCopy k a b ∉ (copy_audio_to_anki env cfg cards s).2.trace := by
  intro a b hm
  unfold copy_audio_to_anki at hm
  dsimp only at hm
  split_ifs at hm with hmd
  · rcases copy_loop_pub_chr env cfg env.ankiMediaDir cards 0 _ k a b hm with
      hold | ⟨_, c2, hg2, he2⟩
    · rw [update_trace] at hold
      rcases List.mem_cons.mp hold with hh | hh
      · exact Event.noConfusion hh
      · exact hn a b hh
    · rw [Nat.sub_zero, hg] at hg2
      obtain rfl : c = c2 := by injection hg2
      rw [he2] at he
      simp at he
  · rw [update_trace] at hm
    rcases List.mem_cons.mp hm with hh | hh
    · exact Event.noConfusion hh
    · exact hn a b hh

theorem send_anki_no_note (env : Env) (cfg : GeneratorConfig) (cards : List FlashcardData)
    (s : GenState) (k : Nat) (c : FlashcardData)
    (hg : cards.get? k = some c) (he : c.error.isSome = true)
    (hn : ∀ m r o, Event.noteAdd k m r o ∉ s.trace) :
    ∀ m r o, Event.noteAdd k m r o ∉ (send_to_anki env cfg cards s).2.trace := by
  intro m r o hm
  unfold send_to_anki at hm
  rcases send_loop_note_chr env cfg cards 0 _ k m r o hm with hold | ⟨_, c2, hg2, he2⟩
  · rw [update_trace] at hold
    rcases List.mem_cons.mp hold with hh | hh
    · exact Event.noConfusion hh
    · exact hn m r o hh
  · rw [Nat.sub_zero, hg] at hg2
    obtain rfl : c = c2 := by injection hg2
    rw [he2] at he
    simp at he

theorem post_stages_c1 (env : Env) (cfg : GeneratorConfig) (cards2 : List FlashcardData)
    (s2 : GenState) (k : Nat) (c : FlashcardData)
    (hg : cards2.get? k = some c) (he : c.error.isSome = true)
    (htts : ∀ t f, Event.ttsCall k t f ∉ s2.trace)
    (hpub : ∀ a b, Event.publishCopy k a b ∉ s2.trace)
    (hnote : ∀ m r o, Event.noteAdd k m r o ∉ s2.trace) :
    (∀ t f, Event.ttsCall k t f ∉
      ({ update_state ProcessingState.completed
          (if (copy_audio_to_anki env cfg cards2 s2).1
           then (send_to_anki env cfg cards2 (copy_audio_to_anki env cfg cards2 s2).2).2
           else (copy_audio_to_anki env cfg cards2 s2).2) with checkpointFile := none }).trace) ∧
    (∀ a b, Event.publishCopy k a b ∉
      ({ update_state ProcessingState.completed
          (if (copy_audio_to_anki env cfg cards2 s2).1
           then (send_to_anki env cfg cards2 (copy_audio_to_anki env cfg cards2 s2).2).2
           else (copy_audio_to_anki env cfg cards2 s2).2) with checkpointFile := none }).trace) ∧
    (∀ m r o, Event.noteAdd k m r o ∉
      ({ update_state ProcessingState.completed
          (if (copy_audio_to_anki env cfg cards2 s2).1
           then (send_to_anki env cfg cards2 (copy_audio_to_anki env cfg cards2 s2).2).2
           else (copy_audio_to_anki env cfg cards2 s2).2) with checkpointFile := none }).trace) := by
  have hcp_tts : ∀ t f, Event.ttsCall k t f ∉ (copy_audio_to_anki env cfg cards2 s2).2.trace := by
    intro t f
    refine extWith_not_mem (copy_anki_snd env cfg cards2 s2).1 ?_ (htts t f)
    rintro (⟨i, a, b, hh⟩ | ⟨st, hh⟩) <;> exact Event.noConfusion hh
  have hcp_note : ∀ m r o, Event.noteAdd k m r o ∉
      (copy_audio_to_anki env cfg cards2 s2).2.trace := by
    intro m r o
    refine extWith_not_mem (copy_anki_snd env cfg cards2 s2).1 ?_ (hnote m r o)
    rintro (⟨i, a, b, hh⟩ | ⟨st, hh⟩) <;> exact Event.noConfusion hh
  have hcp_pub : ∀ a b, Event.publishCopy k a b ∉
      (copy_audio_to_anki env cfg cards2 s2).2.trace :=
    copy_anki_no_pub env cfg cards2 s2 k c hg he hpub
  have hY_tts : ∀ t f, Event.ttsCall k t f ∉
      (if (copy_audio_to_anki env cfg cards2 s2).1
       then (send_to_anki env cfg cards2 (copy_audio_to_anki env cfg cards2 s2).2).2
       else (copy_audio_to_anki env cfg cards2 s2).2).trace := by
    intro t f
    by_cases hcp : (copy_audio_to_anki env cfg cards2 s2).1 = true
    · rw [if_pos hcp]
      refine extWith_not_mem (send_anki_snd env cfg cards2 _).1 ?_ (hcp_tts t f)
      rintro (⟨i, m, r, o, hh⟩ | ⟨st, hh⟩) <;> exact Event.noConfusion hh
    · rw [if_neg hcp]
      exact hcp_tts t f
  have hY_pub : ∀ a b, Event.publishCopy k a b ∉
      (if (copy_audio_to_anki env cfg cards2 s2).1
       then (send_to_anki env cfg cards2 (copy_audio_to_anki env cfg cards2 s2).2).2
       else (copy_audio_to_anki env cfg cards2 s2).2).trace := by
    intro a b
    by_cases hcp : (copy_audio_to_anki env cfg cards2 s2).1 = true
    · rw [if_pos hcp]
      refine extWith_not_mem (send_anki_snd env cfg cards2 _).1 ?_ (hcp_pub a b)
      rintro (⟨i, m, r, o, hh⟩ | ⟨st, hh⟩) <;> exact Event.noConfusion hh
    · rw [if_neg hcp]
      exact hcp_pub a b
  have hY_note : ∀ m r o, Event.noteAdd k m r o ∉
      (if (copy_audio_to_anki env cfg cards2 s2).1
       then (send_to_anki env cfg cards2 (copy_audio_to_anki env cfg cards2 s2).2).2
       else (copy_audio_to_anki env cfg cards2 s2).2).trace := by
    intro m r o
    by_cases hcp : (copy_audio_to_anki env cfg cards2 s2).1 = true
    · rw [if_pos hcp]
      exact send_anki_no_note env cfg cards2 _ k c hg he hcp_note m r o
    · rw [if_neg hcp]
      exact hcp_note m r o
  have h1 : ({ update_state ProcessingState.completed
      (if (copy_audio_to_anki env cfg cards2 s2).1
       then (send_to_anki env cfg cards2 (copy_audio_to_anki env cfg cards2 s2).2).2
       else (copy_audio_to_anki env cfg cards2 s2).2) with checkpointFile := none } : GenState).trace =
      Event.stateEv ProcessingState.completed ::
      (if (copy_audio_to_anki env cfg cards2 s2).1
       then (send_to_anki env cfg cards2 (copy_audio_to_anki env cfg cards2 s2).2).2
       else (copy_audio_to_anki env cfg cards2 s2).2).trace := rfl
  refine ⟨?_, ?_, ?_⟩
  · intro t f hm
    rw [h1] at hm
    rcases List.mem_cons.mp hm with hh | hh
    · exact Event.noConfusion hh
    · exact hY_tts t f hh
  · intro a b hm
    rw [h1] at hm
    rcases List.mem_cons.mp hm with hh | hh
    · exact Event.noConfusion hh
    · exact hY_pub a b hh
  · intro m r o hm
    rw [h1] at hm
    rcases List.mem_cons.mp hm with hh | hh
    · exact Event.noConfusion hh
    · exact hY_note m r o hh

/-- C1: a record that leaves the content stage with a non-null error is
advanced to no later stage of the run: the audio stage makes no synthesis call
for its position, the publish stage copies no audio file for it, and no
forward or reverse note is submitted for it. -/
theorem C1_errored_not_advanced (env : Env) (cfg : GeneratorConfig) (cancelAt : Option Nat)
    (s0 : GenState) (k : Nat) (c : FlashcardData)
    (h0 : s0.trace = [])
    (hc : (runContent env cancelAt s0).1.get? k = some c)
    (herr : c.error.isSome = true) :
    (∀ t f, Event.ttsCall k t f ∉ (run env cfg cancelAt s0).2.trace) ∧
    (∀ a b, Event.publishCopy k a b ∉ (run env cfg cancelAt s0).2.trace) ∧
    (∀ m r o, Event.noteAdd k m r o ∉ (run env cfg cancelAt s0).2.trace) := by
  have hctE : ∀ e ∈ (runContent env cancelAt s0).2.trace, contentEv e := by
    intro e he
    rcases extWith_mem_elim (runContent_snd env cancelAt s0).1 he with h | h
    · rw [h0] at h
      exact absurd h (List.not_mem_nil e)
    · exact h
  have hcs_tts : ∀ t f, Event.ttsCall k t f ∉ (runContent env cancelAt s0).2.trace := by
    intro t f hm
    rcases hctE _ hm with ⟨w, hh⟩ | ⟨st, hh⟩ <;> exact Event.noConfusion hh
  have hcs_pub : ∀ a b, Event.publishCopy k a b ∉ (runContent env cancelAt s0).2.trace := by
    intro a b hm
    rcases hctE _ hm with ⟨w, hh⟩ | ⟨st, hh⟩ <;> exact Event.noConfusion hh
  have hcs_note : ∀ m r o, Event.noteAdd k m r o ∉ (runContent env cancelAt s0).2.trace := by
    intro m r o hm
    rcases hctE _ hm with ⟨w, hh⟩ | ⟨st, hh⟩ <;> exact Event.noConfusion hh
  unfold run
  by_cases hw : env.wordsFileExists = false
  · rw [if_pos hw]
    refine ⟨?_, ?_, ?_⟩
    · intro t f hm
      simp only [update_state, List.mem_cons] at hm
      rcases hm with hh | hh | hh
      · exact Event.noConfusion hh
      · exact Event.noConfusion hh
      · rw [h0] at hh
        exact absurd hh (List.not_mem_nil _)
    · intro a b hm
      simp only [update_state, List.mem_cons] at hm
      rcases hm with hh | hh | hh
      · exact Event.noConfusion hh
      · exact Event.noConfusion hh
      · rw [h0] at hh
        exact absurd hh (List.not_mem_nil _)
    · intro m r o hm
      simp only [update_state, List.mem_cons] at hm
      rcases hm with hh | hh | hh
      · exact Event.noConfusion hh
      · exact Event.noConfusion hh
      · rw [h0] at hh
        exact absurd hh (List.not_mem_nil _)
  · rw [if_neg hw]
    by_cases hempty : (runWords env).isEmpty = true
    · rw [if_pos hempty]
      refine ⟨?_, ?_, ?_⟩
      · intro t f hm
        simp only [update_state, List.mem_cons] at hm
        rcases hm with hh | hh | hh
        · exact Event.noConfusion hh
        · exact Event.noConfusion hh
        · rw [h0] at hh
          exact absurd hh (List.not_mem_nil _)
      · intro a b hm
        simp only [update_state, List.mem_cons] at hm
        rcases hm with hh | hh | hh
        · exact Event.noConfusion hh
        · exact Event.noConfusion hh
        · rw [h0] at hh
          exact absurd hh (List.not_mem_nil _)
      · intro m r o hm
        simp only [update_state, List.mem_cons] at hm
        rcases hm with hh | hh | hh
        · exact Event.noConfusion hh
        · exact Event.noConfusion hh
        · rw [h0] at hh
          exact absurd hh (List.not_mem_nil _)
    · rw [if_neg hempty]
      dsimp only
      by_cases hcanc : (runContent env cancelAt s0).2.cancelled = true
      · rw [if_pos hcanc]
        exact ⟨hcs_tts, hcs_pub, hcs_note⟩
      · rw [if_neg hcanc]
        try dsimp only
        by_cases htm : cfg.test_mode = true
        · rw [if_pos htm]
          try dsimp only
          rw [if_neg hcanc]
          exact post_stages_c1 env cfg _ _ k c hc herr hcs_tts hcs_pub hcs_note
        · rw [if_neg htm]
          try dsimp only
          have hg2 : (audioLoop env cfg (runContent env cancelAt s0).1.length
              (runContent env cancelAt s0).1 0 (runContent env cancelAt s0).2).1.get? k =
              some c :=
            audioLoop_get_errored env cfg _ _ 0 _ k c hc herr
          have ha_tts : ∀ t f, Event.ttsCall k t f ∉
              (audioLoop env cfg (runContent env cancelAt s0).1.length
                (runContent env cancelAt s0).1 0 (runContent env cancelAt s0).2).2.trace := by
            intro t f hm
            rcases audioLoop_tts_chr env cfg _ _ 0 _ k t f hm with hm2 | ⟨_, c2, hg3, he2⟩
            · exact hcs_tts t f hm2
            · rw [Nat.sub_zero, hc] at hg3
              obtain rfl : c = c2 := by injection hg3
              rw [he2] at herr
              simp at herr
          have ha_pub : ∀ a b, Event.publishCopy k a b ∉
              (audioLoop env cfg (runContent env cancelAt s0).1.length
                (runContent env cancelAt s0).1 0 (runContent env cancelAt s0).2).2.trace := by
            intro a b
            refine extWith_not_mem (audioLoop_snd env cfg _ _ 0 _).1 ?_ (hcs_pub a b)
            simp [audioEv]
          have ha_note : ∀ m r o, Event.noteAdd k m r o ∉
              (audioLoop env cfg (runContent env cancelAt s0).1.length
                (runContent env cancelAt s0).1 0 (runContent env cancelAt s0).2).2.trace := by
            intro m r o
            refine extWith_not_mem (audioLoop_snd env cfg _ _ 0 _).1 ?_ (hcs_note m r o)
            simp [audioEv]
          by_cases hcanc2 : (audioLoop env cfg (runContent env cancelAt s0).1.length
              (runContent env cancelAt s0).1 0 (runContent env cancelAt s0).2).2.cancelled = true
          · rw [if_pos hcanc2]
            exact ⟨ha_tts, ha_pub, ha_note⟩
          · rw [if_neg hcanc2]
            exact post_stages_c1 env cfg _ _ k c hg2 herr ha_tts ha_pub ha_note

/-- Witness for C1: the errored record of a concrete run reaches no later stage. -/
theorem C1_errored_not_advanced_witness :
    (runContent wEnvBadJson none (initS [] [] [] none)).1.get? 0 =
      some { word := "hund", translation := "", example_sentence_da := "",
             example_sentence_en := "", error := some ("Failed to parse JSON for " ++ "hund") } ∧
    Event.ttsCall 0 "hund" "hund" ∉ (run wEnvBadJson {} none (initS [] [] [] none)).2.trace ∧
    Event.noteAdd 0 ({} : GeneratorConfig).model_name false true ∉
      (run wEnvBadJson {} none (initS [] [] [] none)).2.trace := by
  have hc : (runContent wEnvBadJson none (initS [] [] [] none)).1.get? 0 =
      some { word := "hund", translation := "", example_sentence_da := "",
             example_sentence_en := "", error := some ("Failed to parse JSON for " ++ "hund") } := by
    decide
  have h := C1_errored_not_advanced wEnvBadJson {} none (initS [] [] [] none) 0
    { word := "hund", translation := "", example_sentence_da := "",
      example_sentence_en := "", error := some ("Failed to parse JSON for " ++ "hund") }
    rfl hc (by decide)
  exact ⟨hc, h.1 "hund" "hund", h.2.2 ({} : GeneratorConfig).model_name false true⟩

theorem dictLookup_append_single {β : Type} (k w : String) (v : β) :
    ∀ l : List (String × β), dictLookup k l = none → w ≠ k →
    dictLookup k (l ++ [(w, v)]) = none := by
  intro l
  induction l with
  | nil => intro _ hne; simp [dictLookup, hne]
  | cons q rest ih =>
      intro h hne
      by_cases hq : q.1 = k
      · simp [dictLookup, hq] at h
      · simp only [dictLookup, hq, if_false] at h
        simpa [dictLookup, hq] using ih h hne

theorem contentStep_ok (env : Env) (w : String) (p : Nat) (s : GenState)
    (a b c d : String)
    (hlw : dictLookup w s.checkpoint = none)
    (hok : env.gemini s.geminiCalls = GeminiOutcome.ok a b c d) :
    (contentStep env w p s).1 =
      some { word := a, translation := b, example_sentence_da := c, example_sentence_en := d } ∧
    (contentStep env w p s).2.cancelled = s.cancelled ∧
    (contentStep env w p s).2.checkpoint =
      s.checkpoint ++ [(w, { word := a, translation := b, example_sentence_da := c, example_sentence_en := d })] ∧
    (contentStep env w p s).2.checkpointFile =
      some (s.checkpoint ++ [(w, { word := a, translation := b, example_sentence_da := c, example_sentence_en := d })]) ∧
    (contentStep env w p s).2.geminiCalls = s.geminiCalls + 1 := by
  unfold contentStep generate_content_for_word
  rw [hlw]
  dsimp only
  rw [show (update_state ProcessingState.generating_content
      { s with stats := { s.stats with current_word := some w } }).geminiCalls =
    s.geminiCalls from rfl]
  rw [hok]
  dsimp only
  rw [if_pos rfl]
  refine ⟨rfl, rfl, ?_, ?_, rfl⟩ <;>
    simp [update_state, save_checkpoint, dictInsert_of_lookup_none w _ s.checkpoint hlw]

theorem contentLoop_cancel_chr (env : Env) :
    ∀ (ws : List String) (jj p : Nat) (s : GenState),
    s.cancelled = false →
    jj < ws.length →
    (∀ w ∈ ws, dictLookup w s.checkpoint = none) →
    ws.Nodup →
    (∀ i, i < jj → ∃ a b c d, env.gemini (s.geminiCalls + i) = GeminiOutcome.ok a b c d) →
    (contentLoop env (some (p + jj)) ws p s).2.cancelled = true ∧
    (contentLoop env (some (p + jj)) ws p s).2.state = ProcessingState.cancelled ∧
    (contentLoop env (some (p + jj)) ws p s).2.checkpoint =
      s.checkpoint ++ expectedCheckpoint env (ws.take jj) s.geminiCalls ∧
    (jj = 0 → (contentLoop env (some (p + jj)) ws p s).2.checkpointFile = s.checkpointFile) ∧
    (jj ≠ 0 → (contentLoop env (some (p + jj)) ws p s).2.checkpointFile =
      some ((contentLoop env (some (p + jj)) ws p s).2.checkpoint)) ∧
    (contentLoop env (some (p + jj)) ws p s).1.length = jj := by
  intro ws
  induction ws with
  | nil =>
      intro jj p s _ hlt _ _ _
      simp at hlt
  | cons w rest ih =>
      intro jj p s hcanc hlt hfresh hnodup hok
      cases jj with
      | zero =>
          simp only [contentLoop]
          rw [if_pos (show (some (p + 0) : Option Nat) = some p from by simp)]
          refine ⟨rfl, rfl, ?_, fun _ => rfl, fun h => absurd rfl h, rfl⟩
          show s.checkpoint = s.checkpoint ++
            expectedCheckpoint env (List.take 0 (w :: rest)) s.geminiCalls
          simp [expectedCheckpoint]
      | succ jj' =>
          simp only [contentLoop]
          rw [if_neg (show ¬ ((some (p + (jj' + 1)) : Option Nat) = some p) from by simp)]
          rw [if_neg (show ¬ (s.cancelled = true) from by rw [hcanc]; simp)]
          dsimp only
          have hlw : dictLookup w s.checkpoint = none := hfresh w (List.mem_cons_self _ _)
          obtain ⟨a, b, c, d, hok0⟩ := hok 0 (Nat.succ_pos _)
          rw [Nat.add_zero] at hok0
          obtain ⟨hr1, hrc, hrcp, hrcf, hrg⟩ := contentStep_ok env w p s a b c d hlw hok0
          have hpe : p + (jj' + 1) = (p + 1) + jj' := by omega
          rw [hpe]
          have ihh := ih jj' (p + 1) (contentStep env w p s).2 (hrc.trans hcanc)
            (Nat.lt_of_succ_lt_succ hlt)
            (by
              intro w' hw'
              rw [hrcp]
              exact dictLookup_append_single w' w _ s.checkpoint
                (hfresh w' (List.mem_cons_of_mem _ hw'))
                (fun he => (List.nodup_cons.mp hnodup).1 (he ▸ hw')))
            (List.nodup_cons.mp hnodup).2
            (by
              intro i hi
              rw [hrg]
              rw [show s.geminiCalls + 1 + i = s.geminiCalls + (i + 1) from by omega]
              exact hok (i + 1) (by omega))
          rw [hr1]
          dsimp only
          have hckpt : (contentLoop env (some ((p + 1) + jj')) rest (p + 1)
              (contentStep env w p s).2).2.checkpoint =
              s.checkpoint ++ expectedCheckpoint env ((w :: rest).take (jj' + 1)) s.geminiCalls := by
            rw [ihh.2.2.1, hrcp, hrg, List.take_succ_cons]
            simp [expectedCheckpoint, hok0, List.append_assoc]
          refine ⟨ihh.1, ihh.2.1, hckpt, fun h => absurd h (Nat.succ_ne_zero jj'), ?_, ?_⟩
          · intro _
            cases jj' with
            | zero =>
                rw [ihh.2.2.2.1 rfl, hrcf, ihh.2.2.1, hrcp]
                simp [expectedCheckpoint]
            | succ j2 =>
                rw [ihh.2.2.2.2.1 (Nat.succ_ne_zero j2)]
          · simp [ihh.2.2.2.2.2]

theorem runContent_cancel_chr (env : Env) (j : Nat) (s0 : GenState)
    (hc0 : s0.cancelled = false) (hcp0 : s0.checkpoint = []) (hg0 : s0.geminiCalls = 0)
    (htr0 : s0.trace = [])
    (hlt : j < (runWords env).length) (hnodup : (runWords env).Nodup)
    (hok : ∀ i, i < j → ∃ a b c d, env.gemini i = GeminiOutcome.ok a b c d) :
    (runContent env (some j) s0).2.cancelled = true ∧
    (runContent env (some j) s0).2.state = ProcessingState.cancelled ∧
    (runContent env (some j) s0).2.checkpoint =
      expectedCheckpoint env ((runWords env).take j) 0 ∧
    (j = 0 → (runContent env (some j) s0).2.checkpointFile = s0.checkpointFile) ∧
    (j ≠ 0 → (runContent env (some j) s0).2.checkpointFile =
      some ((runContent env (some j) s0).2.checkpoint)) ∧
    (runContent env (some j) s0).1.length = j ∧
    (∀ e ∈ (runContent env (some j) s0).2.trace,
      contentEv e ∨ e = Event.stateEv ProcessingState.reading_words) := by
  have hcp0' : ({ update_state ProcessingState.reading_words s0 with stats :=
      { (update_state ProcessingState.reading_words s0).stats with
        total_words := (runWords env).length } } : GenState).checkpoint = [] := hcp0
  have hg0' : ({ update_state ProcessingState.reading_words s0 with stats :=
      { (update_state ProcessingState.reading_words s0).stats with
        total_words := (runWords env).length } } : GenState).geminiCalls = 0 := hg0
  have hchr := contentLoop_cancel_chr env (runWords env) j 0
    { update_state ProcessingState.reading_words s0 with stats :=
      { (update_state ProcessingState.reading_words s0).stats with
        total_words := (runWords env).length } }
    hc0 hlt
    (fun w _ => by rw [hcp0']; rfl)
    hnodup
    (fun i hi => by rw [hg0', Nat.zero_add]; exact hok i hi)
  rw [Nat.zero_add] at hchr
  have h3 := hchr.2.2.1
  rw [hcp0', hg0'] at h3
  rw [List.nil_append] at h3
  have hev : ∀ e ∈ (runContent env (some j) s0).2.trace,
      contentEv e ∨ e = Event.stateEv ProcessingState.reading_words := by
    intro e he
    have he' : e ∈ (contentLoop env (some j) (runWords env) 0
        { update_state ProcessingState.reading_words s0 with stats :=
          { (update_state ProcessingState.reading_words s0).stats with
            total_words := (runWords env).length } }).2.trace := he
    rcases extWith_mem_elim (contentLoop_snd env (some j) (runWords env) 0 _).1 he' with h | h
    · have e2 : ({ update_state ProcessingState.reading_words s0 with stats :=
          { (update_state ProcessingState.reading_words s0).stats with
            total_words := (runWords env).length } } : GenState).trace =
          Event.stateEv ProcessingState.reading_words :: s0.trace := rfl
      rw [e2, htr0] at h
      rcases List.mem_cons.mp h with h | h
      · exact Or.inr h
      · exact absurd h (List.not_mem_nil _)
    · exact Or.inl h
  exact ⟨hchr.1, hchr.2.1, h3, fun hj => hchr.2.2.2.1 hj,
    fun hj => hchr.2.2.2.2.1 hj, hchr.2.2.2.2.2, hev⟩

/-- C4: a cancellation delivered at a between-words boundary of the content
loop leaves the run in state `CANCELLED`; the audio stage makes no synthesis
call and the publish stage makes no copy or note submission afterwards; the
checkpoint file is not deleted and holds exactly the entries of the words
whose content generation succeeded before the cancellation. -/
theorem C4_cancel_between_words (env : Env) (cfg : GeneratorConfig) (j : Nat)
    (s0 : GenState)
    (hwf : env.wordsFileExists = true)
    (hc0 : s0.cancelled = false) (hcp0 : s0.checkpoint = []) (hg0 : s0.geminiCalls = 0)
    (htr0 : s0.trace = [])
    (hlt : j < (runWords env).length) (hnodup : (runWords env).Nodup)
    (hok : ∀ i, i < j → ∃ a b c d, env.gemini i = GeminiOutcome.ok a b c d) :
    (run env cfg (some j) s0).2.cancelled = true ∧
    (run env cfg (some j) s0).2.state = ProcessingState.cancelled ∧
    (run env cfg (some j) s0).2.checkpoint =
      expectedCheckpoint env ((runWords env).take j) 0 ∧
    (j = 0 → (run env cfg (some j) s0).2.checkpointFile = s0.checkpointFile) ∧
    (j ≠ 0 → (run env cfg (some j) s0).2.checkpointFile =
      some ((run env cfg (some j) s0).2.checkpoint)) ∧
    (∀ i t f, Event.ttsCall i t f ∉ (run env cfg (some j) s0).2.trace) ∧
    (∀ i a b, Event.publishCopy i a b ∉ (run env cfg (some j) s0).2.trace) ∧
    (∀ i m r o, Event.noteAdd i m r o ∉ (run env cfg (some j) s0).2.trace) ∧
    (∀ i w est, Event.audioCall i w est ∉ (run env cfg (some j) s0).2.trace) := by
  have hR := runContent_cancel_chr env j s0 hc0 hcp0 hg0 htr0 hlt hnodup hok
  have hne : ¬ ((runWords env).isEmpty = true) := by
    intro hh
    rw [List.isEmpty_iff] at hh
    rw [hh] at hlt
    simp at hlt
  unfold run
  rw [if_neg (by rw [hwf]; simp)]
  rw [if_neg hne]
  dsimp only
  rw [if_pos hR.1]
  refine ⟨hR.1, hR.2.1, hR.2.2.1, hR.2.2.2.1, hR.2.2.2.2.1, ?_, ?_, ?_, ?_⟩
  · intro i t f hm
    rcases hR.2.2.2.2.2.2 _ hm with hce | heq
    · rcases hce with ⟨w, hh⟩ | ⟨st, hh⟩ <;> exact Event.noConfusion hh
    · exact Event.noConfusion heq
  · intro i a b hm
    rcases hR.2.2.2.2.2.2 _ hm with hce | heq
    · rcases hce with ⟨w, hh⟩ | ⟨st, hh⟩ <;> exact Event.noConfusion hh
    · exact Event.noConfusion heq
  · intro i m r o hm
    rcases hR.2.2.2.2.2.2 _ hm with hce | heq
    · rcases hce with ⟨w, hh⟩ | ⟨st, hh⟩ <;> exact Event.noConfusion hh
    · exact Event.noConfusion heq
  · intro i w est hm
    rcases hR.2.2.2.2.2.2 _ hm with hce | heq
    · rcases hce with ⟨w2, hh⟩ | ⟨st, hh⟩ <;> exact Event.noConfusion hh
    · exact Event.noConfusion heq

/-- Witness for C4: cancelling after the first of three concrete words. -/
theorem C4_cancel_between_words_witness :
    (run wEnv3 {} (some 1) (initS [] [] [] none)).2.state = ProcessingState.cancelled ∧
    (run wEnv3 {} (some 1) (initS [] [] [] none)).2.checkpoint =
      expectedCheckpoint wEnv3 ((runWords wEnv3).take 1) 0 ∧
    (run wEnv3 {} (some 1) (initS [] [] [] none)).2.checkpointFile =
      some ((run wEnv3 {} (some 1) (initS [] [] [] none)).2.checkpoint) ∧
    expectedCheckpoint wEnv3 ((runWords wEnv3).take 1) 0 =
      [("hund", { word := "hund", translation := "dog", example_sentence_da := "En hund.",
                  example_sentence_en := "A dog." })] := by
  have h := C4_cancel_between_words wEnv3 {} 1 (initS [] [] [] none) rfl rfl rfl rfl rfl
    (by decide) (by decide) (fun i hi => ⟨"hund", "dog", "En hund.", "A dog.", rfl⟩)
  exact ⟨h.2.1, h.2.2.1, h.2.2.2.2.1 (by decide), by decide⟩

/-- C5 counterexample: a run (test mode, Anki media directory absent) that
terminates in `COMPLETED` without ever entering `SENDING_TO_ANKI`: staging
failure silently skips the store-submission stage. -/
theorem C5_completed_without_sending :
    (run wEnvOk { test_mode := true } none (initS [] [] [] none)).2.state =
      ProcessingState.completed ∧
    Event.stateEv ProcessingState.copying_audio ∈
      (run wEnvOk { test_mode := true } none (initS [] [] [] none)).2.trace ∧
    Event.stateEv ProcessingState.sending_to_anki ∉
      (run wEnvOk { test_mode := true } none (initS [] [] [] none)).2.trace :=
  ⟨by decide, by decide, by decide⟩

theorem post_c5 (env : Env) (cfg : GeneratorConfig) (cards2 : List FlashcardData)
    (s2 : GenState) (hmf : env.ankiMediaDir ∈ s2.files) :
    ∃ u v w, ({ update_state ProcessingState.completed
        (if (copy_audio_to_anki env cfg cards2 s2).1
         then (send_to_anki env cfg cards2 (copy_audio_to_anki env cfg cards2 s2).2).2
         else (copy_audio_to_anki env cfg cards2 s2).2) with checkpointFile := none } : GenState).trace =
      Event.stateEv ProcessingState.completed ::
        (u ++ Event.stateEv ProcessingState.sending_to_anki ::
          (v ++ Event.stateEv ProcessingState.copying_audio :: w)) := by
  have hpe : pathExists env.ankiMediaDir (update_state ProcessingState.copying_audio s2) = true :=
    pathExists_of_mem _ _ hmf
  have hcp1 : (copy_audio_to_anki env cfg cards2 s2).1 = true := by
    rw [copy_anki_fst]
    exact pathExists_of_mem _ _ hmf
  have hcp2 : (copy_audio_to_anki env cfg cards2 s2).2 =
      copy_audio_loop cfg env.ankiMediaDir cards2 0
        (update_state ProcessingState.copying_audio s2) := by
    unfold copy_audio_to_anki
    dsimp only
    rw [if_pos hpe]
  obtain ⟨u, hu, -⟩ := (send_loop_snd env cfg cards2 0
    (update_state ProcessingState.sending_to_anki (copy_audio_to_anki env cfg cards2 s2).2)).1
  obtain ⟨v, hv, -⟩ := (copy_loop_snd env cfg env.ankiMediaDir cards2 0
    (update_state ProcessingState.copying_audio s2)).1
  refine ⟨u, v, s2.trace, ?_⟩
  rw [show ({ update_state ProcessingState.completed
      (if (copy_audio_to_anki env cfg cards2 s2).1
       then (send_to_anki env cfg cards2 (copy_audio_to_anki env cfg cards2 s2).2).2
       else (copy_audio_to_anki env cfg cards2 s2).2) with checkpointFile := none } : GenState).trace =
    Event.stateEv ProcessingState.completed ::
    (if (copy_audio_to_anki env cfg cards2 s2).1
     then (send_to_anki env cfg cards2 (copy_audio_to_anki env cfg cards2 s2).2).2
     else (copy_audio_to_anki env cfg cards2 s2).2).trace from rfl]
  rw [if_pos hcp1]
  rw [show (send_to_anki env cfg cards2 (copy_audio_to_anki env cfg cards2 s2).2).2 =
    (send_loop env cfg cards2 0 (update_state ProcessingState.sending_to_anki
      (copy_audio_to_anki env cfg cards2 s2).2)).2 from rfl]
  rw [hu, update_trace, hcp2, hv, update_trace]

/-- C5 (amended): a run that terminates in `COMPLETED`, started uncancelled
with the Anki media directory present, passes through `COPYING_AUDIO`, then
`SENDING_TO_ANKI`, and only then `COMPLETED`; without the media directory the
store-submission stage can be skipped entirely (see the counterexample). -/
theorem C5_completed_passes_stages (env : Env) (cfg : GeneratorConfig)
    (cancelAt : Option Nat) (s0 : GenState)
    (hc0 : s0.cancelled = false)
    (hmedia : env.ankiMediaDir ∈ s0.files)
    (hdone : (run env cfg cancelAt s0).2.state = ProcessingState.completed) :
    ∃ u v w, (run env cfg cancelAt s0).2.trace =
      Event.stateEv ProcessingState.completed ::
        (u ++ Event.stateEv ProcessingState.sending_to_anki ::
          (v ++ Event.stateEv ProcessingState.copying_audio :: w)) := by
  unfold run at hdone ⊢
  by_cases hw : env.wordsFileExists = false
  · rw [if_pos hw] at hdone
    simp [update_state] at hdone
  · rw [if_neg hw] at hdone ⊢
    by_cases hempty : (runWords env).isEmpty = true
    · rw [if_pos hempty] at hdone
      simp [update_state] at hdone
    · rw [if_neg hempty] at hdone ⊢
      dsimp only at hdone ⊢
      by_cases hcanc : (runContent env cancelAt s0).2.cancelled = true
      · exfalso
        rw [if_pos hcanc] at hdone
        have hst := contentLoop_cancel_state env cancelAt (runWords env) 0
          { update_state ProcessingState.reading_words s0 with stats :=
            { (update_state ProcessingState.reading_words s0).stats with
              total_words := (runWords env).length } } hc0 hcanc
        have hst2 : (runContent env cancelAt s0).2.state = ProcessingState.cancelled := hst
        rw [hst2] at hdone
        exact ProcessingState.noConfusion hdone
      · rw [if_neg hcanc] at hdone ⊢
        try dsimp only at hdone ⊢
        by_cases htm : cfg.test_mode = true
        · rw [if_pos htm] at hdone ⊢
          try dsimp only at hdone ⊢
          rw [if_neg hcanc] at hdone ⊢
          have hmf : env.ankiMediaDir ∈ (runContent env cancelAt s0).2.files := by
            rw [(runContent_snd env cancelAt s0).2.2.2.1]
            exact hmedia
          exact post_c5 env cfg _ _ hmf
        · rw [if_neg htm] at hdone ⊢
          try dsimp only at hdone ⊢
          have hc2 : ¬ ((audioLoop env cfg (runContent env cancelAt s0).1.length
              (runContent env cancelAt s0).1 0 (runContent env cancelAt s0).2).2.cancelled = true) := by
            rw [(audioLoop_snd env cfg _ _ 0 _).2.1]
            exact hcanc
          rw [if_neg hc2] at hdone ⊢
          have hmf : env.ankiMediaDir ∈ (audioLoop env cfg (runContent env cancelAt s0).1.length
              (runContent env cancelAt s0).1 0 (runContent env cancelAt s0).2).2.files := by
            refine (audioLoop_snd env cfg _ _ 0 _).2.2.2.2.2.2.2 _ ?_
            rw [(runContent_snd env cancelAt s0).2.2.2.1]
            exact hmedia
          exact post_c5 env cfg _ _ hmf

/-- Witness for the amended C5: a concrete completed run with the media
directory present passes `COPYING_AUDIO` then `SENDING_TO_ANKI` then
`COMPLETED`. -/
theorem C5_completed_passes_stages_witness :
    (run wEnvOk { test_mode := true } none (initS [] [] ["/media"] none)).2.state =
      ProcessingState.completed ∧
    (∃ u v w, (run wEnvOk { test_mode := true } none (initS [] [] ["/media"] none)).2.trace =
      Event.stateEv ProcessingState.completed ::
        (u ++ Event.stateEv ProcessingState.sending_to_anki ::
          (v ++ Event.stateEv ProcessingState.copying_audio :: w))) := by
  have hdone : (run wEnvOk { test_mode := true } none (initS [] [] ["/media"] none)).2.state =
      ProcessingState.completed := by decide
  exact ⟨hdone, C5_completed_passes_stages wEnvOk { test_mode := true } none
    (initS [] [] ["/media"] none) rfl (by decide) hdone⟩

end AnkiCardMaker
